import Mathlib

/-!
# Odin deployer: validation, resources, capacity safeguards and the deploy state machine

A shallow embedding of `deployer/models/service.go` and `deployer/machine.go`.

* Go pointers (`*string`, `*int64`, ...) are `Option` values; dereferencing `nil`
  is the outcome `Outcome.panic`.
* `int64` values are integers; the embedded code only compares them and takes
  maxima and minima, so no wrap-around can occur.
* Calls to the cloud clients are recorded in a call log. The answer of a client may
  depend on everything that was called before, so it receives the log so far.
* The document of `machine.go` is run by an engine for the Amazon States Language,
  which is not part of the sources either. `step` follows the rules of that
  language: a task that fails is retried while the first retrier covering the
  error has retries left (`MaxAttempts` counts retries), and is then handed to the
  first catcher covering the error. Waiting times are data of the document only.
* Packages that are not part of the sources (`aws`, `asg`, `elb`, `alb`, the
  `Strategy` methods) appear as data: a value of such a type is described by what
  its methods return.
* The other functions that `service.go` calls and that are not part of the sources
  are the fields of `Helpers`: functions that return, of which nothing else is
  assumed. A method that must read the fields of its receiver panics on a nil
  receiver.
-/

namespace Odin

/-! ## Go values -/

/-- A Go `error` value: either an ordinary error carrying a message, or the
`HaltError` wrapper declared in `service.go`. -/
inductive GoError where
  | errorString (msg : String)
  | HaltError (err : GoError)
  deriving DecidableEq, Repr

/-- The method `Error()`; for `HaltError` it is the message of the wrapped error. -/
def GoError.Error : GoError → String
  | .errorString msg => msg
  | .HaltError err => err.Error

/-- The result of running Go code that may dereference a nil pointer. -/
inductive Outcome (α : Type) where
  | returned (value : α)
  | panic
  deriving DecidableEq, Repr

/-! ## Types of the packages outside the sources -/

/-- The type `aws.Instances`, described by the results of its methods
`InstanceIDs()`, `HealthyIDs()`, `TerminatingIDs()` and by its `len`. -/
structure Instances where
  InstanceIDs : List String := []
  HealthyIDs : List String := []
  TerminatingIDs : List String := []
  len : Nat := 0
  deriving DecidableEq, Repr

/-- The fields of `asg.ASG` that `service.go` reads. Both are `*int64`. -/
structure ASG where
  AutoScalingGroupName : Option String := none
  MinSize : Option Int := none
  DesiredCapacity : Option Int := none
  deriving DecidableEq, Repr

/-- The type `Strategy` (its methods are not part of the sources): a value object
described by what its methods return. -/
structure Strategy where
  TargetHealthy : Int
  TargetCapacity : Int
  InitialMinSize : Option Int
  InitialDesiredCapacity : Option Int
  DesiredCapacity : Int
  ReachedMaxTerminations : Instances → Bool
  CalculateMinDesired : Instances → Int × Int

/-- The type `autoscaling.UpdateAutoScalingGroupInput`, with the fields the deployer sets. -/
structure UpdateAutoScalingGroupInput where
  AutoScalingGroupName : Option String
  MinSize : Option Int
  DesiredCapacity : Option Int
  deriving DecidableEq, Repr

/-- A scaling policy of an `AutoScalingConfig` (the type `Policy` is not part of
the sources): its kind (the field `Type`) and its adjustment. -/
structure Policy where
  PolicyType : Option String := none
  ScalingAdjustment : Option Int := none
  deriving DecidableEq, Repr

/-- The type `autoscaling.LifecycleHookSpecification`, as far as the spec names it. -/
structure LifecycleHookSpecification where
  LifecycleHookName : Option String := none
  LifecycleTransition : Option String := none
  HeartbeatTimeout : Option Int := none
  DefaultResult : Option String := none
  deriving DecidableEq, Repr

/-- The type `asg.Input`, which wraps `autoscaling.CreateAutoScalingGroupInput`,
with the fields that `createInput` assigns. -/
structure CreateAutoScalingGroupInput where
  AutoScalingGroupName : Option String := none
  LaunchConfigurationName : Option String := none
  MinSize : Option Int := none
  DesiredCapacity : Option Int := none
  MaxSize : Option Int := none
  DefaultCooldown : Option Int := none
  HealthCheckGracePeriod : Option Int := none
  LoadBalancerNames : List (Option String) := []
  TargetGroupARNs : List (Option String) := []
  VPCZoneIdentifier : Option String := none
  LifecycleHookSpecificationList : List LifecycleHookSpecification := []
  PlacementGroup : Option String := none
  Tags : List (String × Option String) := []
  deriving DecidableEq, Repr

/-- The type `lc.LaunchConfigInput`, which wraps
`autoscaling.CreateLaunchConfigurationInput`, with the fields that
`createLaunchConfigurationInput` assigns and the block devices. -/
structure CreateLaunchConfigurationInput where
  LaunchConfigurationName : Option String := none
  ImageId : Option String := none
  SecurityGroups : List (Option String) := []
  IamInstanceProfile : Option String := none
  InstanceType : Option String := none
  AssociatePublicIpAddress : Option Bool := none
  UserData : Option String := none
  BlockDevices : List (Option Int × Option String × Option String) := []
  SpotPrice : Option String := none
  deriving DecidableEq, Repr

/-- A call issued to one of the cloud clients. `CreateLaunchConfiguration` and
`CreateAutoScalingGroup` stand for the method `Create` of the two inputs, and
`CreatePolicy` for the method `Create` of a policy. -/
inductive Call where
  | asgGetInstances (asgName : Option String)
  | elbGetInstances (elbName : Option String) (ids : List String)
  | albGetInstances (targetGroup : Option String) (ids : List String)
  | UpdateAutoScalingGroup (input : UpdateAutoScalingGroupInput)
  | CreateLaunchConfiguration (input : CreateLaunchConfigurationInput)
  | CreateAutoScalingGroup (input : CreateAutoScalingGroupInput)
  | CreatePolicy (policy : Policy) (asgName : Option String)
  | EnableMetricsCollection (asgName : Option String) (granularity : Option String)
  deriving DecidableEq, Repr

/-- The cloud clients and the `aws` helpers. Every client function receives the
log of the calls issued before it, so that its answers may vary over time.
`asgGetInstances` is `asg.GetInstances`, which returns the census and the group. -/
structure Clients where
  asgGetInstances : List Call → Option String → Except GoError (Instances × ASG)
  elbGetInstances : List Call → Option String → List String → Except GoError Instances
  albGetInstances : List Call → Option String → List String → Except GoError Instances
  UpdateAutoScalingGroup : List Call → UpdateAutoScalingGroupInput → Option GoError
  MergeInstances : Instances → Instances → Instances
  CreateLaunchConfiguration : List Call → CreateLaunchConfigurationInput → Option GoError :=
    fun _ _ => none
  CreateAutoScalingGroup : List Call → CreateAutoScalingGroupInput → Option GoError :=
    fun _ _ => none
  CreatePolicy : List Call → Policy → Option String → Option GoError := fun _ _ _ => none
  EnableMetricsCollection : List Call → Option String → Option String → Option GoError :=
    fun _ _ _ => none

/-! ## The data model of `service.go` -/

/-- The struct `HealthReport`. The `*int` fields hold lengths. -/
structure HealthReport where
  TargetHealthy : Option Int := none
  TargetLaunched : Option Int := none
  Healthy : Option Int := none
  Launching : Option Int := none
  Terminating : Option Int := none
  TerminatingIDs : List String := []
  DesiredCapacity : Option Int := none
  MinSize : Option Int := none
  deriving DecidableEq, Repr

/-- The fields of `ServiceResourceNames` that `service.go` reads. -/
structure ServiceResourceNames where
  Image : Option String := none
  Profile : Option String := none
  SecurityGroups : List (Option String) := []
  ELBs : List (Option String) := []
  TargetGroups : List (Option String) := []
  Subnets : List (Option String) := []
  deriving DecidableEq, Repr

/-- The fields of `AutoScalingConfig` that `service.go` reads. -/
structure AutoScalingConfig where
  MinSize : Option Int := none
  MaxSize : Option Int := none
  DefaultCooldown : Option Int := none
  HealthCheckGracePeriod : Option Int := none
  Policies : List (Option Policy) := []
  deriving DecidableEq, Repr

/-- A `time.Time`, described by what `UTC().Format(time.RFC3339)` returns for it. -/
structure Time where
  utcRFC3339 : String
  deriving DecidableEq, Repr

/-- The struct `LifeCycleHook` (not part of the sources), with the fields the spec
names. -/
structure LifeCycleHook where
  Name : Option String := none
  Transition : Option String := none
  HeartbeatTimeout : Option Int := none
  DefaultResult : Option String := none
  deriving DecidableEq, Repr

/-- The fields of `Release` that `service.go` reads. `LifeCycleHooks` is a Go map,
listed here in the order in which a `range` loop happens to visit it. -/
structure Release where
  ProjectName : Option String := none
  ConfigName : Option String := none
  UUID : Option String := none
  ReleaseID : Option String := none
  CreatedAt : Option Time := none
  Subnets : List (Option String) := []
  Timeout : Option Int := none
  Bucket : Option String := none
  AwsAccountID : Option String := none
  AwsRegion : Option String := none
  LifeCycleHooks : List (String × Option LifeCycleHook) := []
  deriving DecidableEq, Repr

/-- The struct `Service`. The back-reference `release` is a pointer; `Tags` is a Go
map, listed in the order in which a `range` loop happens to visit it. -/
structure Service where
  release : Option Release := none
  userdata : Option String := none
  ServiceName : Option String := none
  ELBs : List (Option String) := []
  Profile : Option String := none
  TargetGroups : List (Option String) := []
  SecurityGroups : List (Option String) := []
  Tags : List (String × Option String) := []
  InstanceType : Option String := none
  Autoscaling : Option AutoScalingConfig := none
  SpotPrice : Option String := none
  strategy : Option Strategy := none
  EBSVolumeSize : Option Int := none
  EBSVolumeType : Option String := none
  EBSDeviceName : Option String := none
  PlacementGroupName : Option String := none
  PlacementGroupPartitionCount : Option Int := none
  PlacementGroupStrategy : Option String := none
  AssociatePublicIpAddress : Option Bool := none
  Resources : Option ServiceResourceNames := none
  CreatedASG : Option String := none
  PreviousDesiredCapacity : Option Int := none
  HealthReport : Option HealthReport := none
  Healthy : Bool := false
  PauseForSlowStart : Option Int := none

/-- What a method of `Service` did: the receiver afterwards, the cloud calls it
issued (in order), and what it returned (`none` is the Go `nil` error). -/
structure Run where
  service : Service
  calls : List Call
  result : Outcome (Option GoError)

/-! ## `setHealthy` -/

/-- The method `Service.setHealthy`. The group is a non-nil `*asg.ASG`. -/
def setHealthy (service : Service) (group : ASG) (instances : Instances) : Outcome Service :=
  match service.strategy with
  | none => .panic
  | some strategy =>
    let healthy := instances.HealthyIDs
    let terming := instances.TerminatingIDs
    .returned { service with
      HealthReport := some {
        TargetHealthy := some strategy.TargetHealthy
        TargetLaunched := some strategy.TargetCapacity
        Healthy := some (healthy.length : Int)
        Terminating := some (terming.length : Int)
        TerminatingIDs := terming
        Launching := some (instances.len : Int)
        DesiredCapacity := group.DesiredCapacity
        MinSize := group.MinSize }
      Healthy := decide ((healthy.length : Int) ≥ strategy.TargetHealthy) }

/-! ## Updating the group -/

/-- The method `Service.SetMinDesiredCapacity`: one `UpdateAutoScalingGroup` call
on `CreatedASG`, whose error is returned. -/
def SetMinDesiredCapacity (env : Clients) (service : Service) (history : List Call)
    (minSize desiredCapacity : Option Int) : Run :=
  let input : UpdateAutoScalingGroupInput :=
    { AutoScalingGroupName := service.CreatedASG
      MinSize := minSize
      DesiredCapacity := desiredCapacity }
  { service := service
    calls := [Call.UpdateAutoScalingGroup input]
    result := .returned (env.UpdateAutoScalingGroup history input) }

/-- The method `Service.SafeSetMinDesiredCapacity`. `max` and `min` are the maximum
and minimum of two `int64` values. -/
def SafeSetMinDesiredCapacity (env : Clients) (service : Service) (history : List Call)
    (group : ASG) (minSize desiredCapacity : Int) : Run :=
  match group.MinSize, group.DesiredCapacity with
  | some groupMin, some groupDC =>
    let minSize := max minSize groupMin
    let desiredCapacity := max desiredCapacity groupDC
    let minSize := min minSize desiredCapacity
    if minSize = groupMin ∧ desiredCapacity = groupDC then
      { service := service, calls := [], result := .returned none }
    else
      SetMinDesiredCapacity env service history (some minSize) (some desiredCapacity)
  | _, _ => { service := service, calls := [], result := .panic }

/-! ## `UpdateHealthy` -/

/-- The first loop of `UpdateHealthy`: merge the census of every classic load
balancer, stopping at the first lookup that fails. Returns the calls issued too. -/
def mergeELBInstances (env : Clients) (history : List Call) :
    List (Option String) → Instances → List Call → Except GoError Instances × List Call
  | [], all, calls => (.ok all, calls)
  | checkELB :: rest, all, calls =>
    let calls1 := calls ++ [Call.elbGetInstances checkELB all.InstanceIDs]
    match env.elbGetInstances (history ++ calls) checkELB all.InstanceIDs with
    | .error err => (.error err, calls1)
    | .ok elbInstances =>
      mergeELBInstances env history rest (env.MergeInstances all elbInstances) calls1

/-- The second loop of `UpdateHealthy`: the same for every target group. -/
def mergeTGInstances (env : Clients) (history : List Call) :
    List (Option String) → Instances → List Call → Except GoError Instances × List Call
  | [], all, calls => (.ok all, calls)
  | checkTG :: rest, all, calls =>
    let calls1 := calls ++ [Call.albGetInstances checkTG all.InstanceIDs]
    match env.albGetInstances (history ++ calls) checkTG all.InstanceIDs with
    | .error err => (.error err, calls1)
    | .ok tgInstances =>
      mergeTGInstances env history rest (env.MergeInstances all tgInstances) calls1

/-- The method `Service.UpdateHealthy`. -/
def UpdateHealthy (env : Clients) (service : Service) (history : List Call) : Run :=
  let calls0 := [Call.asgGetInstances service.CreatedASG]
  match env.asgGetInstances history service.CreatedASG with
  | .error err => { service := service, calls := calls0, result := .returned (some err) }
  | .ok (all, group) =>
    match service.strategy with
    | none => { service := service, calls := calls0, result := .panic }
    | some strategy =>
      if strategy.ReachedMaxTerminations all then
        match service.ServiceName with
        | none => { service := service, calls := calls0, result := .panic }
        | some name =>
          let err := GoError.errorString
            ("Found terming instances " ++ name ++ ", " ++ String.intercalate "," all.TerminatingIDs)
          { service := service, calls := calls0, result := .returned (some (.HaltError err)) }
      else
        match service.Resources with
        | none => { service := service, calls := calls0, result := .panic }
        | some resources =>
          match mergeELBInstances env history resources.ELBs all calls0 with
          | (.error err, calls1) =>
            { service := service, calls := calls1, result := .returned (some err) }
          | (.ok all1, calls1) =>
            match mergeTGInstances env history resources.TargetGroups all1 calls1 with
            | (.error err, calls2) =>
              { service := service, calls := calls2, result := .returned (some err) }
            | (.ok all2, calls2) =>
              match setHealthy service group all2 with
              | .panic => { service := service, calls := calls2, result := .panic }
              | .returned service1 =>
                let (min, dc) := strategy.CalculateMinDesired all2
                let r := SafeSetMinDesiredCapacity env service1 (history ++ calls2) group min dc
                match r.result with
                | .panic => { service := service1, calls := calls2 ++ r.calls, result := .panic }
                | .returned none =>
                  { service := service1, calls := calls2 ++ r.calls, result := .returned none }
                | .returned (some err) =>
                  match service1.ServiceName with
                  | none => { service := service1, calls := calls2 ++ r.calls, result := .panic }
                  | some name =>
                    { service := service1
                      calls := calls2 ++ r.calls
                      result := .returned (some (.errorString
                        ("Setting Min and Desired Capacity Error for " ++ name ++ ": " ++ err.Error))) }

/-! ## Library functions -/

/-- The library function `is.EmptyStr` (package `step/utils/is`): a string pointer is
empty when it is nil or points to the empty string. -/
def EmptyStr (s : Option String) : Bool :=
  match s with
  | none => true
  | some str => decide (str = "")

/-- The loop of `is.UniqueStrp`, with the strings met so far. -/
def uniqueFrom (seen : List String) : List (Option String) → Bool
  | [] => true
  | none :: _ => false
  | some str :: rest => if str ∈ seen then false else uniqueFrom (str :: seen) rest

/-- The library function `is.UniqueStrp` (package `step/utils/is`): false when the
list holds a nil pointer or the same string twice, as the comments of
`ValidateAttributes` say ("Non unique string in ELBs or nil value"). -/
def UniqueStrp (strs : List (Option String)) : Bool :=
  uniqueFrom [] strs

/-- The call `strings.Replace(s, ":", "-", -1)`: every colon becomes a dash. -/
def colonsToDashes (s : String) : String :=
  String.mk (s.data.map fun c => if c = ':' then '-' else c)

/-- The functions that `service.go` calls and that are not part of the sources: the
packages `to`, `strings`, `asg` and `lc`, and the files of `models` that declare
`AutoScalingConfig`, `Strategy`, `LifeCycleHook` and `Release`. Each of them is a
function that returns; what it returns is left open.
`Replace args s` is `strings.NewReplacer(args...).Replace(s)`; `newStrategy` is the
literal `&Strategy{...}` together with its methods; `asgSetDefaults`, `asgValidate`
and `ToASG` are the methods `SetDefaults`, `Validate` and `ToASG` of `asg.Input`;
`lcSetDefaults` and `lcValidate` are those of `lc.LaunchConfigInput`. -/
structure Helpers where
  Strs : Option String → String
  Base64p : Option String → Option String
  StrSlice : List (Option String) → List String
  Replace : List String → String → String
  SharedProjectDir : Release → Option String
  ReleaseDir : Release → Option String
  autoscalingSetDefaults : AutoScalingConfig → Option String → Option Int → AutoScalingConfig
  autoscalingValidateAttributes : AutoScalingConfig → Option GoError
  newStrategy : AutoScalingConfig → Option Int → Strategy
  hookValidateAttributes : LifeCycleHook → Option GoError
  ToLifecycleHookSpecification : LifeCycleHook → LifecycleHookSpecification
  AddTag : CreateAutoScalingGroupInput → String → Option String → CreateAutoScalingGroupInput
  asgSetDefaults : CreateAutoScalingGroupInput → CreateAutoScalingGroupInput
  asgValidate : CreateAutoScalingGroupInput → Option GoError
  ToASG : CreateAutoScalingGroupInput → ASG
  lcSetDefaults : CreateLaunchConfigurationInput → CreateLaunchConfigurationInput
  AddBlockDevice : CreateLaunchConfigurationInput → Option Int → Option String → Option String →
    CreateLaunchConfigurationInput
  lcValidate : CreateLaunchConfigurationInput → Option GoError

/-- Modelled from the spec: the methods `AddTag` and `SetDefaults` of `asg.Input` and
`AddBlockDevice` of `lc.LaunchConfigInput` (packages `aws/asg` and `aws/lc`, not part
of the sources). The spec has the launch configuration and the group created under
the name `service_id` ("the same string is used as both ASG name and
launch-configuration name"): whatever else these methods do to an input, they leave
its names. -/
def Helpers.namesKept (h : Helpers) : Helpers :=
  { h with
    AddTag := fun input key value =>
      { h.AddTag input key value with
        AutoScalingGroupName := input.AutoScalingGroupName
        LaunchConfigurationName := input.LaunchConfigurationName }
    asgSetDefaults := fun input =>
      { h.asgSetDefaults input with
        AutoScalingGroupName := input.AutoScalingGroupName
        LaunchConfigurationName := input.LaunchConfigurationName }
    AddBlockDevice := fun input size type name =>
      { h.AddBlockDevice input size type name with
        LaunchConfigurationName := input.LaunchConfigurationName } }

/-! ## Getters and defaults -/

/-- The method `Service.ServiceID`. The getters `ProjectName()`, `ConfigName()` and
`CreatedAt()` read `service.release`, which panics when the release is nil. -/
def ServiceID (service : Service) : Outcome (Option String) :=
  match service.release with
  | none => .panic
  | some release =>
    match release.ProjectName, release.ConfigName, service.ServiceName, release.CreatedAt with
    | some project, some config, some name, some createdAt =>
      let tf := colonsToDashes createdAt.utcRFC3339
      .returned (some (project ++ "-" ++ config ++ "-" ++ tf ++ "-" ++ name))
    | _, _, _, _ => .returned none

/-- The method `Service.errorPrefix`. -/
def errorPrefix (service : Service) : String :=
  match service.ServiceName with
  | none => "Service Error:"
  | some name => "Service(" ++ name ++ ") Error:"

/-- The method `Service.SubnetIds`. -/
def SubnetIds (h : Helpers) (service : Service) : Outcome (Option String) :=
  match service.Resources with
  | none => .panic
  | some resources => .returned (some (String.intercalate "," (h.StrSlice resources.Subnets)))

/-- The loop of `LifeCycleHookSpecs`; converting a nil hook reads through a nil
pointer. -/
def hookSpecs (h : Helpers) :
    List (String × Option LifeCycleHook) → Outcome (List LifecycleHookSpecification)
  | [] => .returned []
  | (_, none) :: _ => .panic
  | (_, some lc) :: rest =>
    match hookSpecs h rest with
    | .panic => .panic
    | .returned lcs => .returned (h.ToLifecycleHookSpecification lc :: lcs)

/-- The method `Service.LifeCycleHookSpecs`. -/
def LifeCycleHookSpecs (h : Helpers) (service : Service) :
    Outcome (List LifecycleHookSpecification) :=
  match service.release with
  | none => .panic
  | some release => hookSpecs h release.LifeCycleHooks

/-- The method `Service.UserData`. -/
def UserData (h : Helpers) (service : Service) : Outcome (Option String) :=
  match service.release with
  | none => .panic
  | some release =>
    let templateARGs : List String :=
      [ "\x7b\x7bRELEASE_ID\x7d\x7d", h.Strs release.ReleaseID,
        "\x7b\x7bPROJECT_NAME\x7d\x7d", h.Strs release.ProjectName,
        "\x7b\x7bCONFIG_NAME\x7d\x7d", h.Strs release.ConfigName,
        "\x7b\x7bSERVICE_NAME\x7d\x7d", h.Strs service.ServiceName,
        "\x7b\x7bRELEASE_BUCKET\x7d\x7d", h.Strs release.Bucket,
        "\x7b\x7bAWS_ACCOUNT_ID\x7d\x7d", h.Strs release.AwsAccountID,
        "\x7b\x7bAWS_REGION\x7d\x7d", h.Strs release.AwsRegion,
        "\x7b\x7bSHARED_PROJECT_DIR\x7d\x7d", h.Strs (h.SharedProjectDir release),
        "\x7b\x7bRELEASE_DIR\x7d\x7d", h.Strs (h.ReleaseDir release) ]
    .returned (some (h.Replace templateARGs (h.Strs service.userdata)))

/-- The method `Service.SetDefaults`; the release is a pointer. -/
def SetDefaults (h : Helpers) (service : Service) (release : Option Release)
    (serviceName : String) : Outcome Service :=
  let service1 : Service := { service with release := release, ServiceName := some serviceName }
  let autoscaling : AutoScalingConfig :=
    match service1.Autoscaling with
    | none => {}
    | some config => config
  let resources : ServiceResourceNames :=
    match service1.Resources with
    | none => { Subnets := [some "place_holder"] }
    | some names => names
  let service2 : Service :=
    { service1 with Autoscaling := some autoscaling, Resources := some resources }
  match ServiceID service2 with
  | .panic => .panic
  | .returned id =>
    match service2.release with
    | none => .panic
    | some rel =>
      let autoscaling1 := h.autoscalingSetDefaults autoscaling id rel.Timeout
      .returned { service2 with
        Autoscaling := some autoscaling1
        strategy := some (h.newStrategy autoscaling1 service2.PreviousDesiredCapacity) }

/-! ## Validation -/

/-- The method `Service.validatePlacementGroupAttributes`. -/
def validatePlacementGroupAttributes (service : Service) : Option GoError :=
  match service.PlacementGroupName with
  | none => none
  | some _ =>
    match service.PlacementGroupStrategy with
    | none =>
      some (.errorString "PlacementGroupStrategy must be defined with PlacementGroupName")
    | some strat =>
      if strat ≠ "cluster" ∧ strat ≠ "spread" ∧ strat ≠ "partition" then
        some (.errorString
          "PlacementGroupStrategy must be one of 'cluster' or 'spread' or 'partition'")
      else if strat = "partition" ∧ service.PlacementGroupPartitionCount = none then
        some (.errorString
          "PlacementGroupPartitionCount must be defined if PlacementGroupName and strategy is 'partition'")
      else if strat ≠ "partition" ∧ service.PlacementGroupPartitionCount ≠ none then
        some (.errorString "PlacementGroupPartitionCount only valid for 'partition' strategy")
      else none

/-- The method `Service.ValidateAttributes`. -/
def ValidateAttributes (h : Helpers) (service : Service) : Option GoError :=
  if EmptyStr service.ServiceName then
    some (.errorString "ServiceName must be defined")
  else if EmptyStr service.InstanceType then
    some (.errorString "InstanceType must be defined")
  else
    match service.Autoscaling with
    | none => some (.errorString "Autoscaling must be defined")
    | some config =>
      match h.autoscalingValidateAttributes config with
      | some err => some err
      | none =>
        if service.SecurityGroups.length < 1 then
          some (.errorString "Security Groups must be included")
        else if !UniqueStrp service.SecurityGroups then
          some (.errorString "Security Group must be unique")
        else if !UniqueStrp service.ELBs then
          some (.errorString "Non Unique ELBs")
        else if !UniqueStrp service.TargetGroups then
          some (.errorString "Non Unique TargetGroups")
        else
          match validatePlacementGroupAttributes service with
          | some err => some err
          | none => none

/-- The loop of `Validate` over the lifecycle hooks of the release. -/
def validateHooks (h : Helpers) : List (String × Option LifeCycleHook) → Option GoError
  | [] => none
  | (name, none) :: _ => some (.errorString ("LifeCycle " ++ name ++ " is nil"))
  | (_, some lc) :: rest =>
    match h.hookValidateAttributes lc with
    | some err => some err
    | none => validateHooks h rest

/-! ## Creating resources -/

/-- The loop of `createInput` over the tags of the service. -/
def addTags (h : Helpers) (input : CreateAutoScalingGroupInput) :
    List (String × Option String) → CreateAutoScalingGroupInput
  | [] => input
  | (key, value) :: rest => addTags h (h.AddTag input key value) rest

/-- The method `Service.createInput`. -/
def createInput (h : Helpers) (service : Service) : Outcome CreateAutoScalingGroupInput :=
  match ServiceID service with
  | .panic => .panic
  | .returned id =>
    match service.strategy with
    | none => .panic
    | some strategy =>
      match service.Autoscaling with
      | none => .panic
      | some config =>
        match service.Resources with
        | none => .panic
        | some resources =>
          match SubnetIds h service with
          | .panic => .panic
          | .returned subnetIds =>
            match LifeCycleHookSpecs h service with
            | .panic => .panic
            | .returned lcs =>
              match service.release with
              | none => .panic
              | some release =>
                let input : CreateAutoScalingGroupInput :=
                  { AutoScalingGroupName := id
                    LaunchConfigurationName := id
                    MinSize := strategy.InitialMinSize
                    DesiredCapacity := strategy.InitialDesiredCapacity
                    MaxSize := config.MaxSize
                    DefaultCooldown := config.DefaultCooldown
                    HealthCheckGracePeriod := config.HealthCheckGracePeriod
                    LoadBalancerNames := resources.ELBs
                    TargetGroupARNs := resources.TargetGroups
                    VPCZoneIdentifier := subnetIds
                    LifecycleHookSpecificationList := lcs
                    PlacementGroup := service.PlacementGroupName }
                let input := addTags h input service.Tags
                let input := h.AddTag input "ProjectName" release.ProjectName
                let input := h.AddTag input "ConfigName" release.ConfigName
                let input := h.AddTag input "ServiceName" service.ServiceName
                let input := h.AddTag input "ReleaseID" release.ReleaseID
                let input := h.AddTag input "ReleaseUUID" release.UUID
                let input := h.AddTag input "Name" id
                .returned (h.asgSetDefaults input)

/-- The method `Service.createLaunchConfigurationInput`. -/
def createLaunchConfigurationInput (h : Helpers) (service : Service) :
    Outcome CreateLaunchConfigurationInput :=
  let input := h.lcSetDefaults {}
  match ServiceID service with
  | .panic => .panic
  | .returned id =>
    let input := { input with LaunchConfigurationName := id }
    let input :=
      match service.Resources with
      | none => input
      | some resources =>
        { input with
          ImageId := resources.Image
          SecurityGroups := resources.SecurityGroups
          IamInstanceProfile := resources.Profile }
    let input :=
      { input with
        InstanceType := service.InstanceType
        AssociatePublicIpAddress := service.AssociatePublicIpAddress }
    match UserData h service with
    | .panic => .panic
    | .returned userData =>
      let input := { input with UserData := h.Base64p userData }
      let input :=
        h.AddBlockDevice input service.EBSVolumeSize service.EBSVolumeType service.EBSDeviceName
      .returned { input with SpotPrice := service.SpotPrice }

/-- The method `Service.Validate`. -/
def Validate (h : Helpers) (service : Service) : Outcome (Option GoError) :=
  match ValidateAttributes h service with
  | some err => .returned (some (.errorString (errorPrefix service ++ " " ++ err.Error)))
  | none =>
    match service.release with
    | none => .panic
    | some release =>
      match validateHooks h release.LifeCycleHooks with
      | some err => .returned (some err)
      | none =>
        match createInput h service with
        | .panic => .panic
        | .returned input =>
          match h.asgValidate input with
          | some err =>
            .returned (some (.errorString (errorPrefix service ++ " " ++ err.Error)))
          | none =>
            match createLaunchConfigurationInput h service with
            | .panic => .panic
            | .returned lcInput =>
              match h.lcValidate lcInput with
              | some err =>
                .returned (some (.errorString (errorPrefix service ++ " " ++ err.Error)))
              | none => .returned none

/-- The loop of `createAutoScalingPolicies`: `policy.Create(asgc, cwc, ServiceID())`
for each policy; creating a nil policy reads through a nil pointer. Returns the
calls issued too. -/
def createPolicies (env : Clients) (service : Service) (history : List Call) :
    List (Option Policy) → List Call → Outcome (Option GoError) × List Call
  | [], calls => (.returned none, calls)
  | policy :: rest, calls =>
    match ServiceID service with
    | .panic => (.panic, calls)
    | .returned id =>
      match policy with
      | none => (.panic, calls)
      | some p =>
        match env.CreatePolicy (history ++ calls) p id with
        | some err => (.returned (some err), calls ++ [Call.CreatePolicy p id])
        | none => createPolicies env service history rest (calls ++ [Call.CreatePolicy p id])

/-- The method `Service.createAutoScalingPolicies`. -/
def createAutoScalingPolicies (env : Clients) (service : Service) (history : List Call)
    (calls : List Call) : Outcome (Option GoError) × List Call :=
  match service.Autoscaling with
  | none => (.panic, calls)
  | some config => createPolicies env service history config.Policies calls

/-- The method `Service.CreateResources`, with `createLaunchConfiguration`, `createASG`
and `createMetricsCollection` unfolded. -/
def CreateResources (env : Clients) (h : Helpers) (service : Service) (history : List Call) :
    Run :=
  match createLaunchConfigurationInput h service with
  | .panic => { service := service, calls := [], result := .panic }
  | .returned lcInput =>
    let calls1 := [Call.CreateLaunchConfiguration lcInput]
    match env.CreateLaunchConfiguration history lcInput with
    | some err => { service := service, calls := calls1, result := .returned (some err) }
    | none =>
      match createInput h service with
      | .panic => { service := service, calls := calls1, result := .panic }
      | .returned input =>
        let calls2 := calls1 ++ [Call.CreateAutoScalingGroup input]
        match env.CreateAutoScalingGroup (history ++ calls1) input with
        | some err => { service := service, calls := calls2, result := .returned (some err) }
        | none =>
          let createdASG := h.ToASG input
          let service1 : Service :=
            { service with CreatedASG := createdASG.AutoScalingGroupName }
          match createAutoScalingPolicies env service1 history calls2 with
          | (.panic, calls3) => { service := service1, calls := calls3, result := .panic }
          | (.returned (some err), calls3) =>
            { service := service1, calls := calls3, result := .returned (some err) }
          | (.returned none, calls3) =>
            match setHealthy service1 createdASG {} with
            | .panic => { service := service1, calls := calls3, result := .panic }
            | .returned service2 =>
              { service := service2
                calls := calls3 ++
                  [Call.EnableMetricsCollection service2.CreatedASG (some "1Minute")]
                result := .returned
                  (env.EnableMetricsCollection (history ++ calls3) service2.CreatedASG
                    (some "1Minute")) }

/-- The method `Service.ResetDesiredCapacity`. -/
def ResetDesiredCapacity (env : Clients) (service : Service) (history : List Call) : Run :=
  match service.Autoscaling with
  | none => { service := service, calls := [], result := .panic }
  | some config =>
    match service.strategy with
    | none => { service := service, calls := [], result := .panic }
    | some strategy =>
      SetMinDesiredCapacity env service history config.MinSize (some strategy.DesiredCapacity)

/-! ### What the spec asks of `CreateResources` -/

/-- The answer of the clients to one of the calls of `CreateResources`, after the
calls in the log. -/
def answer (env : Clients) (history : List Call) : Call → Option GoError
  | .CreateLaunchConfiguration input => env.CreateLaunchConfiguration history input
  | .CreateAutoScalingGroup input => env.CreateAutoScalingGroup history input
  | .CreatePolicy policy asgName => env.CreatePolicy history policy asgName
  | .EnableMetricsCollection asgName granularity =>
    env.EnableMetricsCollection history asgName granularity
  | _ => none

/-- The words of the spec for a list of steps: issue the calls in their order, stop at
the first one that fails and return its error; return nil when none fails. Gives
the calls issued and the error. -/
def issueInOrder (env : Clients) (history : List Call) : List Call → List Call × Option GoError
  | [] => ([], none)
  | call :: rest =>
    match answer env history call with
    | some err => ([call], some err)
    | none =>
      let r := issueInOrder env (history ++ [call]) rest
      (call :: r.1, r.2)

/-- The calls that the spec lists for `CreateResources`, in its order: the launch
configuration, the group, each scaling policy in list order, the metrics
collection of the new group at a granularity of one minute. -/
def plannedCalls (lcInput : CreateLaunchConfigurationInput)
    (input : CreateAutoScalingGroupInput) (policies : List Policy) (serviceID : Option String)
    (newASG : Option String) : List Call :=
  Call.CreateLaunchConfiguration lcInput :: Call.CreateAutoScalingGroup input ::
    ((policies.map fun p => Call.CreatePolicy p serviceID) ++
      [Call.EnableMetricsCollection newASG (some "1Minute")])

/-! ## The deploy state machine of `machine.go` -/

/-- The names of the states in the JSON document of `StateMachine`.
`HealthyQ` is the state named "Healthy?". -/
inductive StateName where
  | Validate | Lock | ValidateResources | Deploy | WaitForDeploy | WaitForHealthy
  | CheckHealthy | HealthyQ | CleanUpSuccess | CleanUpFailure | ReleaseLockFailure
  | FailureClean | FailureDirty | Success
  deriving DecidableEq, Repr

/-- A `Catch` entry. -/
structure Catcher where
  ErrorEquals : List String
  ResultPath : String
  Next : StateName
  deriving DecidableEq, Repr

/-- A `Retry` entry. `IntervalSeconds` is absent from the entry for `HaltError`. -/
structure Retrier where
  ErrorEquals : List String
  MaxAttempts : Nat
  IntervalSeconds : Option Nat
  deriving DecidableEq, Repr

/-- An entry of `Choices`: a boolean test of a variable. -/
structure ChoiceRule where
  Variable : String
  BooleanEquals : Bool
  Next : StateName
  deriving DecidableEq, Repr

/-- A state of the document, by its `Type`. -/
inductive State where
  | TaskFn (Next : StateName) (Retry : List Retrier) (Catch : List Catcher)
  | Wait (Seconds : Option Nat) (SecondsPath : Option String) (Next : StateName)
  | Choice (Choices : List ChoiceRule) (Default : Option StateName)
  | Fail (Error : String)
  | Succeed
  deriving DecidableEq, Repr

/-- A state machine document: `StartAt` and `States`. -/
structure Machine where
  StartAt : StateName
  States : StateName → State

/-- The catcher that every task state of the document ends with, up to its target. -/
def catchAll (next : StateName) : Catcher :=
  { ErrorEquals := ["States.ALL"], ResultPath := "$.error", Next := next }

/-- The retrier shared by the three clean-up states. -/
def keepTrying : Retrier :=
  { ErrorEquals := ["States.ALL"], MaxAttempts := 3, IntervalSeconds := some 30 }

/-- The document that `StateMachine` parses, state by state. -/
def StateMachine : Machine where
  StartAt := .Validate
  States
    | .Validate => .TaskFn .Lock [] [catchAll .FailureClean]
    | .Lock => .TaskFn .ValidateResources []
        [ { ErrorEquals := ["LockExistsError"], ResultPath := "$.error", Next := .FailureClean },
          catchAll .ReleaseLockFailure ]
    | .ValidateResources => .TaskFn .Deploy [] [catchAll .ReleaseLockFailure]
    | .Deploy => .TaskFn .WaitForDeploy []
        [ { ErrorEquals := ["HaltError"], ResultPath := "$.error", Next := .ReleaseLockFailure },
          catchAll .CleanUpFailure ]
    | .WaitForDeploy => .Wait (some 30) none .WaitForHealthy
    | .WaitForHealthy => .Wait none (some "$.wait_for_healthy") .CheckHealthy
    | .CheckHealthy => .TaskFn .HealthyQ
        [ { ErrorEquals := ["HaltError"], MaxAttempts := 0, IntervalSeconds := none },
          { ErrorEquals := ["States.ALL"], MaxAttempts := 3, IntervalSeconds := some 15 } ]
        [catchAll .CleanUpFailure]
    | .HealthyQ => .Choice
        [ { Variable := "$.healthy", BooleanEquals := true, Next := .CleanUpSuccess },
          { Variable := "$.healthy", BooleanEquals := false, Next := .WaitForHealthy } ]
        (some .CleanUpFailure)
    | .CleanUpSuccess => .TaskFn .Success [keepTrying] [catchAll .FailureDirty]
    | .CleanUpFailure => .TaskFn .ReleaseLockFailure [keepTrying] [catchAll .FailureDirty]
    | .ReleaseLockFailure => .TaskFn .FailureClean [keepTrying] [catchAll .FailureDirty]
    | .FailureClean => .Fail "FailureClean"
    | .FailureDirty => .Fail "FailureDirty"
    | .Success => .Succeed

/-! ### Reading a state -/

/-- Whether an `ErrorEquals` list covers an error name: it names the error, or it
holds the wildcard `States.ALL`. -/
def matchesError (errorEquals : List String) (error : String) : Bool :=
  errorEquals.contains "States.ALL" || errorEquals.contains error

/-- The successor of a state when it completes without error (`Next`). -/
def State.next? : State → Option StateName
  | .TaskFn next _ _ => some next
  | .Wait _ _ next => some next
  | _ => none

/-- The `Retry` list of a state. -/
def State.retriers : State → List Retrier
  | .TaskFn _ retry _ => retry
  | _ => []

/-- The `Catch` list of a state. -/
def State.catchers : State → List Catcher
  | .TaskFn _ _ catchers => catchers
  | _ => []

/-- Every state that a state can hand over to: its `Next`, the targets of its
catchers, the targets of its choice rules and its `Default`. -/
def State.targets : State → List StateName
  | .TaskFn next _ catchers => next :: catchers.map fun c => c.Next
  | .Wait _ _ next => [next]
  | .Choice choices default => (choices.map fun r => r.Next) ++ default.toList
  | _ => []

/-- The first retrier of a list that covers the error, with its position. -/
def findRetrier : List Retrier → String → Option (Nat × Retrier)
  | [], _ => none
  | r :: rs, error =>
    if matchesError r.ErrorEquals error then some (0, r)
    else (findRetrier rs error).map fun p => (p.1 + 1, p.2)

/-- The target of the first catcher of a list that covers the error. -/
def catchRoute : List Catcher → String → Option StateName
  | [], _ => none
  | c :: cs, error => if matchesError c.ErrorEquals error then some c.Next else catchRoute cs error

/-- The retry policy of a state for an error: how many retries, and the interval. -/
def retryPolicy (state : State) (error : String) : Option (Nat × Option Nat) :=
  (findRetrier state.retriers error).map fun p => (p.2.MaxAttempts, p.2.IntervalSeconds)

/-- The value of a boolean variable in the data handed from state to state. The
deployer only tests `$.healthy`; `none` stands for a missing or non-boolean value. -/
def lookupBool (healthy : Option Bool) (path : String) : Option Bool :=
  if path = "$.healthy" then healthy else none

/-- The target of a choice state: the first rule whose test holds, else `Default`. -/
def choose (healthy : Option Bool) : List ChoiceRule → Option StateName → Option StateName
  | [], default => default
  | rule :: rules, default =>
    if lookupBool healthy rule.Variable = some rule.BooleanEquals then some rule.Next
    else choose healthy rules default

/-! ### Running the document -/

/-- Where an execution stands: the current state, the value of `$.healthy` in its
input, and how many retries each retrier of the current state has used up. -/
structure Config where
  state : StateName
  healthy : Option Bool
  attempts : List Nat
  deriving DecidableEq, Repr

/-- What happens at the current state: a task attempt returns an output (of which
only `$.healthy` matters), a task attempt raises an error, or a wait elapses or a
choice is evaluated. -/
inductive Event where
  | succeed (healthy : Option Bool)
  | fail (error : String)
  | tick
  deriving DecidableEq, Repr

/-- The retries used so far by the retrier at a position. -/
def used (i : Nat) (attempts : List Nat) : Nat := attempts.getD i 0

/-- Count one more retry for the retrier at a position. -/
def bump : Nat → List Nat → List Nat
  | 0, [] => [1]
  | 0, k :: ks => (k + 1) :: ks
  | i + 1, [] => 0 :: bump i []
  | i + 1, k :: ks => k :: bump i ks

/-- One step of an execution.
A task that returns moves to `Next` with its output. A task that raises an error
is retried in place while the first retrier covering the error has retries left;
otherwise the first catcher covering the error takes over and the input is kept
(the error goes to `$.error`). Terminal states do not step. -/
def step (m : Machine) (c : Config) (ev : Event) : Option Config :=
  match m.States c.state, ev with
  | .TaskFn next _ _, .succeed h => some { state := next, healthy := h, attempts := [] }
  | .TaskFn _ retry catchers, .fail error =>
    match findRetrier retry error with
    | some (i, r) =>
      if used i c.attempts < r.MaxAttempts then
        some { c with attempts := bump i c.attempts }
      else
        (catchRoute catchers error).map fun n =>
          { state := n, healthy := c.healthy, attempts := [] }
    | none =>
      (catchRoute catchers error).map fun n =>
        { state := n, healthy := c.healthy, attempts := [] }
  | .Wait _ _ next, .tick => some { state := next, healthy := c.healthy, attempts := [] }
  | .Choice choices default, .tick =>
    (choose c.healthy choices default).map fun n =>
      { state := n, healthy := c.healthy, attempts := [] }
  | _, _ => none

/-- A step that was taken: where it started, what happened, where it led. -/
structure Transition where
  src : Config
  ev : Event
  dst : Config
  deriving DecidableEq, Repr

/-- The start of an execution, for a given value of `$.healthy` in the input. -/
def start (m : Machine) (healthy : Option Bool) : Config :=
  { state := m.StartAt, healthy := healthy, attempts := [] }

/-- Run a list of events from a configuration, collecting the transitions taken.
The result is `none` when some event cannot happen at the state it meets. -/
def execFrom (m : Machine) : Config → List Transition → List Event → Option (List Transition × Config)
  | c, tr, [] => some (tr, c)
  | c, tr, ev :: evs =>
    match step m c ev with
    | none => none
    | some c1 => execFrom m c1 (tr ++ [{ src := c, ev := ev, dst := c1 }]) evs

/-- An execution of the document from its start state. -/
def exec (m : Machine) (healthy : Option Bool) (evs : List Event) : Option (List Transition × Config) :=
  execFrom m (start m healthy) [] evs

/-- The transition is a task attempt that returned. -/
def Transition.succeeded (t : Transition) : Bool :=
  match t.ev with
  | .succeed _ => true
  | _ => false

/-- The transition is a task attempt that raised an error. -/
def Transition.failed (t : Transition) : Bool :=
  match t.ev with
  | .fail _ => true
  | _ => false

/-- The transition enters a state: it arrives there from another state. -/
def Transition.enters (t : Transition) (n : StateName) : Bool :=
  decide (t.dst.state = n) && !decide (t.src.state = n)

/-- Some transition of the list is a task attempt of the state that returned. -/
def completed (n : StateName) (tr : List Transition) : Bool :=
  tr.any fun t => decide (t.src.state = n) && t.succeeded

/-- The number of transitions at the end of the list that are failed attempts of
the state. -/
def trailingFailures (n : StateName) (tr : List Transition) : Nat :=
  (tr.reverse.takeWhile fun t => decide (t.src.state = n) && t.failed).length

/-! ### The transitions of `StateMachine`, row by row -/

/-- The steps that an execution of `StateMachine` can take, one constructor for each
row; `step_edge` and `edge_step` show that these are exactly the steps of `step`. -/
inductive Edge : Config → Event → Config → Prop where
  | validate_ok (h out : Option Bool) (att : List Nat) :
      Edge ⟨.Validate, h, att⟩ (.succeed out) ⟨.Lock, out, []⟩
  | validate_err (h : Option Bool) (att : List Nat) (e : String) :
      Edge ⟨.Validate, h, att⟩ (.fail e) ⟨.FailureClean, h, []⟩
  | lock_ok (h out : Option Bool) (att : List Nat) :
      Edge ⟨.Lock, h, att⟩ (.succeed out) ⟨.ValidateResources, out, []⟩
  | lock_exists (h : Option Bool) (att : List Nat) :
      Edge ⟨.Lock, h, att⟩ (.fail "LockExistsError") ⟨.FailureClean, h, []⟩
  | lock_err (h : Option Bool) (att : List Nat) (e : String) (he : e ≠ "LockExistsError") :
      Edge ⟨.Lock, h, att⟩ (.fail e) ⟨.ReleaseLockFailure, h, []⟩
  | resources_ok (h out : Option Bool) (att : List Nat) :
      Edge ⟨.ValidateResources, h, att⟩ (.succeed out) ⟨.Deploy, out, []⟩
  | resources_err (h : Option Bool) (att : List Nat) (e : String) :
      Edge ⟨.ValidateResources, h, att⟩ (.fail e) ⟨.ReleaseLockFailure, h, []⟩
  | deploy_ok (h out : Option Bool) (att : List Nat) :
      Edge ⟨.Deploy, h, att⟩ (.succeed out) ⟨.WaitForDeploy, out, []⟩
  | deploy_halt (h : Option Bool) (att : List Nat) :
      Edge ⟨.Deploy, h, att⟩ (.fail "HaltError") ⟨.ReleaseLockFailure, h, []⟩
  | deploy_err (h : Option Bool) (att : List Nat) (e : String) (he : e ≠ "HaltError") :
      Edge ⟨.Deploy, h, att⟩ (.fail e) ⟨.CleanUpFailure, h, []⟩
  | wait_deploy (h : Option Bool) (att : List Nat) :
      Edge ⟨.WaitForDeploy, h, att⟩ .tick ⟨.WaitForHealthy, h, []⟩
  | wait_healthy (h : Option Bool) (att : List Nat) :
      Edge ⟨.WaitForHealthy, h, att⟩ .tick ⟨.CheckHealthy, h, []⟩
  | check_ok (h out : Option Bool) (att : List Nat) :
      Edge ⟨.CheckHealthy, h, att⟩ (.succeed out) ⟨.HealthyQ, out, []⟩
  | check_halt (h : Option Bool) (att : List Nat) :
      Edge ⟨.CheckHealthy, h, att⟩ (.fail "HaltError") ⟨.CleanUpFailure, h, []⟩
  | check_retry (h : Option Bool) (att : List Nat) (e : String) (he : e ≠ "HaltError")
      (hleft : used 1 att < 3) :
      Edge ⟨.CheckHealthy, h, att⟩ (.fail e) ⟨.CheckHealthy, h, bump 1 att⟩
  | check_err (h : Option Bool) (att : List Nat) (e : String) (he : e ≠ "HaltError")
      (hspent : 3 ≤ used 1 att) :
      Edge ⟨.CheckHealthy, h, att⟩ (.fail e) ⟨.CleanUpFailure, h, []⟩
  | healthy_true (att : List Nat) :
      Edge ⟨.HealthyQ, some true, att⟩ .tick ⟨.CleanUpSuccess, some true, []⟩
  | healthy_false (att : List Nat) :
      Edge ⟨.HealthyQ, some false, att⟩ .tick ⟨.WaitForHealthy, some false, []⟩
  | healthy_other (att : List Nat) :
      Edge ⟨.HealthyQ, none, att⟩ .tick ⟨.CleanUpFailure, none, []⟩
  | success_ok (h out : Option Bool) (att : List Nat) :
      Edge ⟨.CleanUpSuccess, h, att⟩ (.succeed out) ⟨.Success, out, []⟩
  | success_retry (h : Option Bool) (att : List Nat) (e : String) (hleft : used 0 att < 3) :
      Edge ⟨.CleanUpSuccess, h, att⟩ (.fail e) ⟨.CleanUpSuccess, h, bump 0 att⟩
  | success_dirty (h : Option Bool) (att : List Nat) (e : String) (hspent : 3 ≤ used 0 att) :
      Edge ⟨.CleanUpSuccess, h, att⟩ (.fail e) ⟨.FailureDirty, h, []⟩
  | failure_ok (h out : Option Bool) (att : List Nat) :
      Edge ⟨.CleanUpFailure, h, att⟩ (.succeed out) ⟨.ReleaseLockFailure, out, []⟩
  | failure_retry (h : Option Bool) (att : List Nat) (e : String) (hleft : used 0 att < 3) :
      Edge ⟨.CleanUpFailure, h, att⟩ (.fail e) ⟨.CleanUpFailure, h, bump 0 att⟩
  | failure_dirty (h : Option Bool) (att : List Nat) (e : String) (hspent : 3 ≤ used 0 att) :
      Edge ⟨.CleanUpFailure, h, att⟩ (.fail e) ⟨.FailureDirty, h, []⟩
  | release_ok (h out : Option Bool) (att : List Nat) :
      Edge ⟨.ReleaseLockFailure, h, att⟩ (.succeed out) ⟨.FailureClean, out, []⟩
  | release_retry (h : Option Bool) (att : List Nat) (e : String) (hleft : used 0 att < 3) :
      Edge ⟨.ReleaseLockFailure, h, att⟩ (.fail e) ⟨.ReleaseLockFailure, h, bump 0 att⟩
  | release_dirty (h : Option Bool) (att : List Nat) (e : String) (hspent : 3 ≤ used 0 att) :
      Edge ⟨.ReleaseLockFailure, h, att⟩ (.fail e) ⟨.FailureDirty, h, []⟩

/-! ## Sample executions -/

/-- The events of a deploy that turns healthy at its first poll, up to the choice. -/
def healthyRun : List Event :=
  [.succeed none, .succeed none, .succeed none, .succeed none, .tick, .tick,
   .succeed (some true), .tick]

/-- The choice step that ends `healthyRun`: from "Healthy?" into CleanUpSuccess. -/
def promotion : Transition :=
  { src := ⟨.HealthyQ, some true, []⟩, ev := .tick, dst := ⟨.CleanUpSuccess, some true, []⟩ }

/-- The events of a deploy that turns healthy and whose clean-up then fails four
times in a row. -/
def dirtyRun : List Event :=
  healthyRun ++ [.fail "DeleteError", .fail "DeleteError", .fail "DeleteError", .fail "DeleteError"]

/-- The step that ends `dirtyRun`: the fourth failure of CleanUpSuccess. -/
def giveUp : Transition :=
  { src := ⟨.CleanUpSuccess, some true, [3]⟩, ev := .fail "DeleteError",
    dst := ⟨.FailureDirty, some true, []⟩ }

/-- The events of a deploy that is halted at its first poll and cleaned up. -/
def haltedRun : List Event :=
  [.succeed none, .succeed none, .succeed none, .succeed none, .tick, .tick,
   .fail "HaltError", .succeed none, .succeed none]

/-- The step of `haltedRun` that enters ReleaseLockFailure: CleanUpFailure returns. -/
def cleanedUp : Transition :=
  { src := ⟨.CleanUpFailure, none, []⟩, ev := .succeed none,
    dst := ⟨.ReleaseLockFailure, none, []⟩ }

/-- The step that ends `haltedRun`: ReleaseLockFailure returns. -/
def released : Transition :=
  { src := ⟨.ReleaseLockFailure, none, []⟩, ev := .succeed none,
    dst := ⟨.FailureClean, none, []⟩ }

/-- The transitions of an execution, or none if the events cannot happen. -/
def traceOf (evs : List Event) : List Transition :=
  match exec StateMachine none evs with
  | some (tr, _) => tr
  | none => []

/-! ## Sample data -/

/-- A strategy that aims at two healthy instances and halts above one termination. -/
def sampleStrategy : Strategy where
  TargetHealthy := 2
  TargetCapacity := 2
  InitialMinSize := some 1
  InitialDesiredCapacity := some 2
  DesiredCapacity := 2
  ReachedMaxTerminations := fun all => decide (1 < all.TerminatingIDs.length)
  CalculateMinDesired := fun _ => (1, 2)

/-- A census of three instances, two of them terminating. -/
def stormCensus : Instances :=
  { InstanceIDs := ["i-1", "i-2", "i-3"], HealthyIDs := ["i-3"],
    TerminatingIDs := ["i-1", "i-2"], len := 3 }

/-- Clients whose group census is `stormCensus` and whose other calls succeed. -/
def sampleClients : Clients where
  asgGetInstances := fun _ _ => .ok (stormCensus, { MinSize := some 1, DesiredCapacity := some 2 })
  elbGetInstances := fun _ _ _ => .ok {}
  albGetInstances := fun _ _ _ => .ok {}
  UpdateAutoScalingGroup := fun _ _ => none
  MergeInstances := fun all _ => all

/-- A service named "web" with `sampleStrategy`. -/
def sampleService : Service :=
  { ServiceName := some "web", strategy := some sampleStrategy,
    Resources := some {}, CreatedASG := some "web-asg" }

/-- Helpers that leave what they are given as it is and accept everything. -/
def sampleHelpers : Helpers where
  Strs := fun s => s.getD ""
  Base64p := fun s => s
  StrSlice := fun strs => strs.filterMap fun s => s
  Replace := fun _ s => s
  SharedProjectDir := fun _ => none
  ReleaseDir := fun _ => none
  autoscalingSetDefaults := fun config _ _ => config
  autoscalingValidateAttributes := fun _ => none
  newStrategy := fun _ _ => sampleStrategy
  hookValidateAttributes := fun _ => none
  ToLifecycleHookSpecification := fun lc =>
    { LifecycleHookName := lc.Name, LifecycleTransition := lc.Transition,
      HeartbeatTimeout := lc.HeartbeatTimeout, DefaultResult := lc.DefaultResult }
  AddTag := fun input key value => { input with Tags := input.Tags ++ [(key, value)] }
  asgSetDefaults := fun input => input
  asgValidate := fun _ => none
  ToASG := fun input => { AutoScalingGroupName := input.AutoScalingGroupName,
                          MinSize := input.MinSize, DesiredCapacity := input.DesiredCapacity }
  lcSetDefaults := fun input => input
  AddBlockDevice := fun input size type name =>
    { input with BlockDevices := input.BlockDevices ++ [(size, type, name)] }
  lcValidate := fun _ => none

/-- A release of the project "project" with one lifecycle hook. -/
def sampleRelease : Release :=
  { ProjectName := some "project", ConfigName := some "config", ReleaseID := some "rel-1",
    UUID := some "uuid-1", CreatedAt := some { utcRFC3339 := "2020-01-02T03:04:05Z" },
    LifeCycleHooks := [("TermHook", some { Name := some "TermHook" })] }

/-- An autoscaling config with one scaling policy. -/
def sampleConfig : AutoScalingConfig :=
  { MinSize := some 1, MaxSize := some 3,
    Policies := [some { PolicyType := some "cpu_scale_up", ScalingAdjustment := some 1 }] }

/-- The service "web" of `sampleRelease`, as it stands after `SetDefaults`. -/
def deployService : Service :=
  { release := some sampleRelease, ServiceName := some "web", InstanceType := some "t2.nano",
    SecurityGroups := [some "sg-web"], Autoscaling := some sampleConfig,
    strategy := some sampleStrategy, Resources := some {} }

/-! ## `SafeSetMinDesiredCapacity` -/

/-- C1: for every existing group `(gmin, gdc)`, which has `gmin ≤ gdc` as every group
of the cloud has, and every requested pair `(m, d)`, SafeSetMinDesiredCapacity
either issues no update, or issues exactly one update, whose MinSize is at least
`gmin` and whose DesiredCapacity is at least `gdc`. -/
theorem SafeSetMinDesiredCapacity_never_lowers (env : Clients) (service : Service)
    (history : List Call) (asgName : Option String) (gmin gdc m d : Int)
    (hgroup : gmin ≤ gdc) :
    (SafeSetMinDesiredCapacity env service history
        { AutoScalingGroupName := asgName, MinSize := some gmin, DesiredCapacity := some gdc }
        m d).calls = []
    ∨ ∃ ms dc,
        (SafeSetMinDesiredCapacity env service history
          { AutoScalingGroupName := asgName, MinSize := some gmin, DesiredCapacity := some gdc }
          m d).calls
          = [Call.UpdateAutoScalingGroup
              { AutoScalingGroupName := service.CreatedASG
                MinSize := some ms
                DesiredCapacity := some dc }]
        ∧ gmin ≤ ms ∧ gdc ≤ dc := by
  unfold SafeSetMinDesiredCapacity
  simp only
  split_ifs with h
  · exact Or.inl rfl
  · refine Or.inr ⟨min (max m gmin) (max d gdc), max d gdc, rfl, ?_, ?_⟩
    · omega
    · omega

/-- A witness for `SafeSetMinDesiredCapacity_never_lowers`: the group `(1, 2)` and
the request `(2, 4)`, which raises both values. -/
theorem SafeSetMinDesiredCapacity_never_lowers_witness :
    (SafeSetMinDesiredCapacity sampleClients sampleService []
        { AutoScalingGroupName := none, MinSize := some 1, DesiredCapacity := some 2 }
        2 4).calls = []
    ∨ ∃ ms dc,
        (SafeSetMinDesiredCapacity sampleClients sampleService []
          { AutoScalingGroupName := none, MinSize := some 1, DesiredCapacity := some 2 }
          2 4).calls
          = [Call.UpdateAutoScalingGroup
              { AutoScalingGroupName := sampleService.CreatedASG
                MinSize := some ms
                DesiredCapacity := some dc }]
        ∧ (1 : Int) ≤ ms ∧ (2 : Int) ≤ dc :=
  SafeSetMinDesiredCapacity_never_lowers sampleClients sampleService [] none 1 2 2 4 (by decide)

/-- C2: every update that SafeSetMinDesiredCapacity issues, for any group and any
request, carries a MinSize that is at most its DesiredCapacity. -/
theorem SafeSetMinDesiredCapacity_min_le_desired (env : Clients) (service : Service)
    (history : List Call) (group : ASG) (m d : Int) (input : UpdateAutoScalingGroupInput)
    (hcall : Call.UpdateAutoScalingGroup input ∈
      (SafeSetMinDesiredCapacity env service history group m d).calls) :
    ∃ ms dc, input.MinSize = some ms ∧ input.DesiredCapacity = some dc ∧ ms ≤ dc := by
  unfold SafeSetMinDesiredCapacity at hcall
  split at hcall
  · simp only at hcall
    split_ifs at hcall with h
    · simp at hcall
    · simp only [SetMinDesiredCapacity, List.mem_singleton,
        Call.UpdateAutoScalingGroup.injEq] at hcall
      subst hcall
      exact ⟨_, _, rfl, rfl, min_le_right _ _⟩
  · simp at hcall

/-- A witness for `SafeSetMinDesiredCapacity_min_le_desired`: the group `(1, 2)`
and the request `(9, 4)`, whose MinSize is clamped to 4. -/
theorem SafeSetMinDesiredCapacity_min_le_desired_witness :
    ∃ ms dc, (some 4 : Option Int) = some ms ∧ (some 4 : Option Int) = some dc ∧ ms ≤ dc :=
  SafeSetMinDesiredCapacity_min_le_desired sampleClients sampleService []
    { MinSize := some 1, DesiredCapacity := some 2 } 9 4
    { AutoScalingGroupName := some "web-asg", MinSize := some 4, DesiredCapacity := some 4 }
    (by decide)

/-- C3: for the group `(gmin, gdc)` and the request `(m, d)`, with
`dc1 = max d gdc` and `min1 = min (max m gmin) dc1`: when `min1 = gmin` and
`dc1 = gdc`, SafeSetMinDesiredCapacity issues no call and returns nil; otherwise it
issues exactly one UpdateAutoScalingGroup call, on CreatedASG with MinSize `min1`
and DesiredCapacity `dc1`, and returns the error of that call. The receiver is
left as it was. -/
theorem SafeSetMinDesiredCapacity_calls (env : Clients) (service : Service)
    (history : List Call) (asgName : Option String) (gmin gdc m d : Int) :
    (SafeSetMinDesiredCapacity env service history
        { AutoScalingGroupName := asgName, MinSize := some gmin, DesiredCapacity := some gdc }
        m d).calls
      = (if min (max m gmin) (max d gdc) = gmin ∧ max d gdc = gdc then []
         else [Call.UpdateAutoScalingGroup
           { AutoScalingGroupName := service.CreatedASG
             MinSize := some (min (max m gmin) (max d gdc))
             DesiredCapacity := some (max d gdc) }])
    ∧ (SafeSetMinDesiredCapacity env service history
        { AutoScalingGroupName := asgName, MinSize := some gmin, DesiredCapacity := some gdc }
        m d).result
      = .returned (if min (max m gmin) (max d gdc) = gmin ∧ max d gdc = gdc then none
         else env.UpdateAutoScalingGroup history
           { AutoScalingGroupName := service.CreatedASG
             MinSize := some (min (max m gmin) (max d gdc))
             DesiredCapacity := some (max d gdc) })
    ∧ (SafeSetMinDesiredCapacity env service history
        { AutoScalingGroupName := asgName, MinSize := some gmin, DesiredCapacity := some gdc }
        m d).service = service := by
  unfold SafeSetMinDesiredCapacity
  simp only
  split_ifs with h
  · exact ⟨rfl, rfl, rfl⟩
  · exact ⟨rfl, rfl, rfl⟩

/-! ## `UpdateHealthy` and `setHealthy` -/

/-- The service that SetDefaults returns has its name and a strategy. The strategy of
a service is assigned nowhere else, so a service with a strategy has its name. -/
theorem SetDefaults_name_strategy (h : Helpers) (before : Service) (release : Option Release)
    (serviceName : String) (service : Service)
    (hset : SetDefaults h before release serviceName = .returned service) :
    service.ServiceName = some serviceName ∧ ∃ strategy, service.strategy = some strategy := by
  unfold SetDefaults at hset
  simp only at hset
  split at hset
  · cases hset
  · split at hset
    · cases hset
    · simp only [Outcome.returned.injEq] at hset
      subst hset
      exact ⟨rfl, _, rfl⟩

/-- C4: for every service that has its name, as every service with a strategy has
(`SetDefaults_name_strategy`), and every census returned by GetInstances for which
ReachedMaxTerminations is true, UpdateHealthy returns a HaltError, its only cloud
call is that GetInstances (no load-balancer or target-group lookup, no
UpdateAutoScalingGroup), and HealthReport and Healthy are unchanged. -/
theorem UpdateHealthy_halts (env : Clients) (service : Service) (history : List Call)
    (all : Instances) (group : ASG) (strategy : Strategy) (name : String)
    (hget : env.asgGetInstances history service.CreatedASG = .ok (all, group))
    (hstrategy : service.strategy = some strategy)
    (hmax : strategy.ReachedMaxTerminations all = true)
    (hname : service.ServiceName = some name) :
    (∃ err, (UpdateHealthy env service history).result = .returned (some (GoError.HaltError err)))
    ∧ (UpdateHealthy env service history).calls = [Call.asgGetInstances service.CreatedASG]
    ∧ (UpdateHealthy env service history).service.HealthReport = service.HealthReport
    ∧ (UpdateHealthy env service history).service.Healthy = service.Healthy := by
  unfold UpdateHealthy
  rw [hget]
  simp only [hstrategy, hmax, hname, if_true]
  refine ⟨⟨_, rfl⟩, ?_, ?_, ?_⟩ <;> trivial

/-- A witness for `UpdateHealthy_halts`: the service "web" and a census with two
terminating instances. -/
theorem UpdateHealthy_halts_witness :
    (∃ err, (UpdateHealthy sampleClients sampleService []).result
        = .returned (some (GoError.HaltError err)))
    ∧ (UpdateHealthy sampleClients sampleService []).calls
        = [Call.asgGetInstances sampleService.CreatedASG]
    ∧ (UpdateHealthy sampleClients sampleService []).service.HealthReport
        = sampleService.HealthReport
    ∧ (UpdateHealthy sampleClients sampleService []).service.Healthy = sampleService.Healthy :=
  UpdateHealthy_halts sampleClients sampleService [] stormCensus
    { MinSize := some 1, DesiredCapacity := some 2 } sampleStrategy "web" rfl rfl (by decide) rfl

/-- C5: for a service with a strategy, every group and every census, setHealthy
returns; afterwards Healthy is true if and only if the number of healthy instances
of the census is at least TargetHealthy, and the Healthy count of the HealthReport
is that same number. -/
theorem setHealthy_healthy_iff (service : Service) (group : ASG) (instances : Instances)
    (strategy : Strategy) (hstrategy : service.strategy = some strategy) :
    ∃ service1, setHealthy service group instances = .returned service1
      ∧ (service1.Healthy = true ↔
          strategy.TargetHealthy ≤ (instances.HealthyIDs.length : Int))
      ∧ ∃ report, service1.HealthReport = some report
          ∧ report.Healthy = some (instances.HealthyIDs.length : Int) := by
  unfold setHealthy
  rw [hstrategy]
  refine ⟨_, rfl, ?_, _, rfl, rfl⟩
  simp

/-- A witness for `setHealthy_healthy_iff`: the service "web" and the census
`stormCensus`, which has one healthy instance. -/
theorem setHealthy_healthy_iff_witness :
    ∃ service1, setHealthy sampleService {} stormCensus = .returned service1
      ∧ (service1.Healthy = true ↔
          sampleStrategy.TargetHealthy ≤ (stormCensus.HealthyIDs.length : Int))
      ∧ ∃ report, service1.HealthReport = some report
          ∧ report.Healthy = some (stormCensus.HealthyIDs.length : Int) :=
  setHealthy_healthy_iff sampleService {} stormCensus sampleStrategy rfl


/-! ## The deploy state machine -/

/-- Every step of `step` on `StateMachine` is one of the rows of `Edge`. -/
theorem step_edge (c c1 : Config) (ev : Event) (h : step StateMachine c ev = some c1) :
    Edge c ev c1 := by
  rcases c with ⟨st, hv, att⟩
  cases st <;> cases ev <;>
    simp [step, StateMachine, findRetrier, catchRoute, catchAll, keepTrying, matchesError,
      choose, lookupBool] at h
  all_goals first
    | (subst h; constructor)
    | skip
  case mk.Lock.fail e =>
    obtain ⟨a, ha, rfl⟩ := h
    by_cases he : e = "LockExistsError"
    · subst he; simp at ha; subst ha; exact Edge.lock_exists _ _
    · simp [he] at ha; subst ha; exact Edge.lock_err _ _ _ he
  case mk.Deploy.fail e =>
    obtain ⟨a, ha, rfl⟩ := h
    by_cases he : e = "HaltError"
    · subst he; simp at ha; subst ha; exact Edge.deploy_halt _ _
    · simp [he] at ha; subst ha; exact Edge.deploy_err _ _ _ he
  case mk.CheckHealthy.fail e =>
    by_cases he : e = "HaltError"
    · subst he; simp [used] at h; subst h; exact Edge.check_halt _ _
    · simp [he] at h
      by_cases hl : used 1 att < 3
      · simp [hl] at h; subst h; exact Edge.check_retry _ _ _ he hl
      · simp [hl] at h; subst h; exact Edge.check_err _ _ _ he (by omega)
  case mk.HealthyQ.tick =>
    obtain ⟨a, ha, rfl⟩ := h
    rcases hv with _ | _ | _ <;> simp at ha <;> subst ha <;> constructor
  case mk.CleanUpSuccess.fail e =>
    by_cases hl : used 0 att < 3
    · simp [hl] at h; subst h; exact Edge.success_retry _ _ _ hl
    · simp [hl] at h; subst h; exact Edge.success_dirty _ _ _ (by omega)
  case mk.CleanUpFailure.fail e =>
    by_cases hl : used 0 att < 3
    · simp [hl] at h; subst h; exact Edge.failure_retry _ _ _ hl
    · simp [hl] at h; subst h; exact Edge.failure_dirty _ _ _ (by omega)
  case mk.ReleaseLockFailure.fail e =>
    by_cases hl : used 0 att < 3
    · simp [hl] at h; subst h; exact Edge.release_retry _ _ _ hl
    · simp [hl] at h; subst h; exact Edge.release_dirty _ _ _ (by omega)

/-- Every row of `Edge` is a step of `step` on `StateMachine`. -/
theorem edge_step (c c1 : Config) (ev : Event) (h : Edge c ev c1) :
    step StateMachine c ev = some c1 := by
  cases h <;>
    simp [step, StateMachine, findRetrier, catchRoute, catchAll, keepTrying, matchesError,
      choose, lookupBool, *]

/-! ### Executions, one step at a time -/

/-- Running one more event at the end of a list of events. -/
theorem execFrom_snoc (m : Machine) (evs : List Event) (ev : Event) :
    ∀ (c : Config) (tr : List Transition),
      execFrom m c tr (evs ++ [ev]) =
        match execFrom m c tr evs with
        | none => none
        | some (tr1, c1) =>
          match step m c1 ev with
          | none => none
          | some c2 => some (tr1 ++ [{ src := c1, ev := ev, dst := c2 }], c2) := by
  induction evs with
  | nil =>
    intro c tr
    simp only [List.nil_append, execFrom]
  | cons e es ih =>
    intro c tr
    simp only [List.cons_append, execFrom]
    cases step m c e with
    | none => rfl
    | some c1 => exact ih c1 _

/-- An execution that takes one more event extends a shorter execution by one step. -/
theorem exec_snoc (m : Machine) (hv : Option Bool) (evs : List Event) (ev : Event)
    (tr : List Transition) (c : Config) (h : exec m hv (evs ++ [ev]) = some (tr, c)) :
    ∃ tr0 c0, exec m hv evs = some (tr0, c0) ∧ step m c0 ev = some c
      ∧ tr = tr0 ++ [{ src := c0, ev := ev, dst := c }] := by
  unfold exec at h ⊢
  rw [execFrom_snoc] at h
  cases h0 : execFrom m (start m hv) [] evs with
  | none => rw [h0] at h; cases h
  | some p =>
    obtain ⟨tr0, c0⟩ := p
    rw [h0] at h
    simp only at h
    cases h1 : step m c0 ev with
    | none => rw [h1] at h; cases h
    | some c2 =>
      rw [h1] at h
      simp only [Option.some.injEq, Prod.mk.injEq] at h
      obtain ⟨rfl, rfl⟩ := h
      exact ⟨tr0, c0, rfl, h1, rfl⟩

/-- Induction over executions: a property of the transitions taken so far and the
current configuration that holds at the start and is kept by every step holds for
every execution. -/
theorem exec_induction (m : Machine) (hv : Option Bool)
    (P : List Transition → Config → Prop) (h0 : P [] (start m hv))
    (hstep : ∀ tr c ev c1, P tr c → step m c ev = some c1 →
      P (tr ++ [{ src := c, ev := ev, dst := c1 }]) c1) :
    ∀ (evs : List Event) (tr : List Transition) (c : Config),
      exec m hv evs = some (tr, c) → P tr c := by
  intro evs
  induction evs using List.reverseRecOn with
  | nil =>
    intro tr c h
    simp only [exec, execFrom, Option.some.injEq, Prod.mk.injEq] at h
    obtain ⟨rfl, rfl⟩ := h
    exact h0
  | append_singleton es e ih =>
    intro tr c h
    obtain ⟨tr0, c0, h1, h2, rfl⟩ := exec_snoc m hv es e tr c h
    exact hstep tr0 c0 e c (ih tr0 c0 h1) h2

/-- Every transition of an execution is a step taken at the end of a shorter
execution, whose transitions are those before it. -/
theorem exec_split (m : Machine) (hv : Option Bool) (evs : List Event)
    (tr : List Transition) (c : Config) (h : exec m hv evs = some (tr, c))
    (pre post : List Transition) (t : Transition) (hsplit : tr = pre ++ t :: post) :
    ∃ evs0, exec m hv evs0 = some (pre, t.src) ∧ step m t.src t.ev = some t.dst := by
  have key := exec_induction m hv
    (fun tr c => (∃ evs0, exec m hv evs0 = some (tr, c)) ∧
      ∀ (pre post : List Transition) (t : Transition), tr = pre ++ t :: post →
        ∃ evs0, exec m hv evs0 = some (pre, t.src) ∧ step m t.src t.ev = some t.dst)
    ⟨⟨[], rfl⟩, by intro pre post t ht; cases pre <;> cases ht⟩
    (by
      rintro tr0 c0 ev c1 ⟨⟨evs0, hrun⟩, ih⟩ hs
      refine ⟨⟨evs0 ++ [ev], ?_⟩, ?_⟩
      · unfold exec at hrun ⊢
        rw [execFrom_snoc, hrun]
        simp only [hs]
      · intro pre post t ht
        rcases List.eq_nil_or_concat post with rfl | ⟨post0, last, rfl⟩
        · have h2 := List.append_inj' ht (by simp)
          obtain ⟨rfl, h3⟩ := h2
          simp only [List.cons.injEq, and_true] at h3
          subst h3
          exact ⟨evs0, hrun, hs⟩
        · have ht2 : tr0 ++ [{ src := c0, ev := ev, dst := c1 }]
              = (pre ++ t :: post0) ++ [last] := by
            rw [ht]; simp
          have h2 := List.append_inj' ht2 (by simp)
          exact ih pre post0 t h2.1)
    evs tr c h
  exact key.2 pre post t hsplit

/-- Combining the two: a property kept by every step holds before each transition
of an execution, for the transitions before it and the configuration it leaves. -/
theorem exec_invariant_at (m : Machine) (hv : Option Bool)
    (P : List Transition → Config → Prop) (h0 : P [] (start m hv))
    (hstep : ∀ tr c ev c1, P tr c → step m c ev = some c1 →
      P (tr ++ [{ src := c, ev := ev, dst := c1 }]) c1)
    (evs : List Event) (tr : List Transition) (c : Config)
    (h : exec m hv evs = some (tr, c))
    (pre post : List Transition) (t : Transition) (hsplit : tr = pre ++ t :: post) :
    P pre t.src ∧ step m t.src t.ev = some t.dst := by
  obtain ⟨evs0, hrun, hs⟩ := exec_split m hv evs tr c h pre post t hsplit
  exact ⟨exec_induction m hv P h0 hstep evs0 pre t.src hrun, hs⟩

/-- Whether a state has completed, after one more transition. -/
theorem completed_snoc (n : StateName) (tr : List Transition) (t : Transition) :
    completed n (tr ++ [t]) = (completed n tr || (decide (t.src.state = n) && t.succeeded)) := by
  simp [completed, List.any_append]

/-- The trailing failures of a state, after one more transition. -/
theorem trailingFailures_snoc (n : StateName) (tr : List Transition) (t : Transition) :
    trailingFailures n (tr ++ [t]) =
      if (decide (t.src.state = n) && t.failed) = true then trailingFailures n tr + 1 else 0 := by
  unfold trailingFailures
  rw [List.reverse_append, List.reverse_singleton, List.singleton_append, List.takeWhile_cons]
  split_ifs <;> simp

/-- No retry has been used when nothing is recorded. -/
theorem used_nil (i : Nat) : used i [] = 0 := by
  simp [used]

/-- Counting one retry raises no counter by more than one. -/
theorem used_bump_le (k : Nat) : ∀ (i : Nat) (att : List Nat),
    used i (bump k att) ≤ used i att + 1 := by
  induction k with
  | zero =>
    intro i att
    cases att <;> cases i <;> simp [used, bump]
  | succ k ih =>
    intro i att
    cases att with
    | nil =>
      cases i with
      | zero => simp [used, bump]
      | succ i => simpa [used, bump] using ih i []
    | cons a as =>
      cases i with
      | zero => simp [used, bump]
      | succ i => simpa [used, bump] using ih i as


/-! ### The table of the document -/

/-- C6: the document starts at Validate, and the success successor, the error routes
(first catcher that covers the error) and the retry policy (retries, interval in
seconds) of every state are those of the table: the four leading tasks have no
retrier; CheckHealthy gives a HaltError no retry and sends it to CleanUpFailure,
and gives any other error 3 retries at 15 s; the choice follows `$.healthy`; the
three clean-up tasks give every error 3 retries at 30 s and then route to
FailureDirty. -/
theorem StateMachine_table :
    StateMachine.StartAt = .Validate
    ∧ ((StateMachine.States .Validate).next? = some .Lock
      ∧ (∀ e, retryPolicy (StateMachine.States .Validate) e = none)
      ∧ (∀ e, catchRoute (StateMachine.States .Validate).catchers e = some .FailureClean))
    ∧ ((StateMachine.States .Lock).next? = some .ValidateResources
      ∧ (∀ e, retryPolicy (StateMachine.States .Lock) e = none)
      ∧ (∀ e, catchRoute (StateMachine.States .Lock).catchers e
          = some (if e = "LockExistsError" then .FailureClean else .ReleaseLockFailure)))
    ∧ ((StateMachine.States .ValidateResources).next? = some .Deploy
      ∧ (∀ e, retryPolicy (StateMachine.States .ValidateResources) e = none)
      ∧ (∀ e, catchRoute (StateMachine.States .ValidateResources).catchers e
          = some .ReleaseLockFailure))
    ∧ ((StateMachine.States .Deploy).next? = some .WaitForDeploy
      ∧ (∀ e, retryPolicy (StateMachine.States .Deploy) e = none)
      ∧ (∀ e, catchRoute (StateMachine.States .Deploy).catchers e
          = some (if e = "HaltError" then .ReleaseLockFailure else .CleanUpFailure)))
    ∧ (StateMachine.States .WaitForDeploy = .Wait (some 30) none .WaitForHealthy
      ∧ StateMachine.States .WaitForHealthy
          = .Wait none (some "$.wait_for_healthy") .CheckHealthy)
    ∧ ((StateMachine.States .CheckHealthy).next? = some .HealthyQ
      ∧ (∀ e, retryPolicy (StateMachine.States .CheckHealthy) e
          = some (if e = "HaltError" then (0, none) else (3, some 15)))
      ∧ (∀ e, catchRoute (StateMachine.States .CheckHealthy).catchers e = some .CleanUpFailure)
      ∧ (∀ hv att, step StateMachine ⟨.CheckHealthy, hv, att⟩ (.fail "HaltError")
          = some ⟨.CleanUpFailure, hv, []⟩))
    ∧ (∀ hv att, step StateMachine ⟨.HealthyQ, hv, att⟩ .tick
        = some ⟨(match hv with
                | some true => .CleanUpSuccess
                | some false => .WaitForHealthy
                | none => .CleanUpFailure), hv, []⟩)
    ∧ ((StateMachine.States .CleanUpSuccess).next? = some .Success
      ∧ (∀ e, retryPolicy (StateMachine.States .CleanUpSuccess) e = some (3, some 30))
      ∧ (∀ e, catchRoute (StateMachine.States .CleanUpSuccess).catchers e = some .FailureDirty))
    ∧ ((StateMachine.States .CleanUpFailure).next? = some .ReleaseLockFailure
      ∧ (∀ e, retryPolicy (StateMachine.States .CleanUpFailure) e = some (3, some 30))
      ∧ (∀ e, catchRoute (StateMachine.States .CleanUpFailure).catchers e = some .FailureDirty))
    ∧ ((StateMachine.States .ReleaseLockFailure).next? = some .FailureClean
      ∧ (∀ e, retryPolicy (StateMachine.States .ReleaseLockFailure) e = some (3, some 30))
      ∧ (∀ e, catchRoute (StateMachine.States .ReleaseLockFailure).catchers e
          = some .FailureDirty))
    ∧ (StateMachine.States .FailureClean = .Fail "FailureClean"
      ∧ StateMachine.States .FailureDirty = .Fail "FailureDirty"
      ∧ StateMachine.States .Success = .Succeed) := by
  refine ⟨rfl, ⟨rfl, ?_, ?_⟩, ⟨rfl, ?_, ?_⟩, ⟨rfl, ?_, ?_⟩, ⟨rfl, ?_, ?_⟩, ⟨rfl, rfl⟩,
    ⟨rfl, ?_, ?_, ?_⟩, ?_, ⟨rfl, ?_, ?_⟩, ⟨rfl, ?_, ?_⟩, ⟨rfl, ?_, ?_⟩, ⟨rfl, rfl, rfl⟩⟩
  case refine_9 =>
    intro e
    by_cases he : e = "HaltError" <;>
      simp [StateMachine, State.retriers, retryPolicy, findRetrier, matchesError, he]
  case refine_11 =>
    intro hv att
    simp [step, StateMachine, findRetrier, catchRoute, catchAll, matchesError, used]
  case refine_12 =>
    intro hv att
    rcases hv with _ | _ | _ <;> simp [step, StateMachine, choose, lookupBool]
  all_goals
    intro e
    simp [StateMachine, State.retriers, State.catchers, retryPolicy, findRetrier, catchRoute,
      catchAll, keepTrying, matchesError]
  all_goals
    split_ifs <;> simp_all


/-! ### What has happened before a state is entered -/

/-- C7: in every execution from Validate, a transition that enters CleanUpSuccess
is the choice "Healthy?" taken with `$.healthy = true`; the transition right before
it is a CheckHealthy attempt that returned with `$.healthy = true`; and Validate,
Lock, ValidateResources, Deploy and CheckHealthy have each returned before it. -/
theorem CleanUpSuccess_only_when_healthy (hv : Option Bool) (evs : List Event)
    (tr : List Transition) (c : Config) (pre post : List Transition) (t : Transition)
    (hexec : exec StateMachine hv evs = some (tr, c))
    (hsplit : tr = pre ++ t :: post)
    (henters : t.enters .CleanUpSuccess = true) :
    t.src.state = .HealthyQ ∧ t.ev = .tick ∧ t.src.healthy = some true
    ∧ (∃ pre0 u, pre = pre0 ++ [u] ∧ u.src.state = .CheckHealthy
        ∧ u.ev = .succeed (some true) ∧ u.dst.state = .HealthyQ)
    ∧ completed .Validate pre = true ∧ completed .Lock pre = true
    ∧ completed .ValidateResources pre = true ∧ completed .Deploy pre = true
    ∧ completed .CheckHealthy pre = true := by
  obtain ⟨hP, hs⟩ := exec_invariant_at StateMachine hv
    (fun tr c =>
      (c.state ∈ [StateName.Lock, .ValidateResources, .Deploy, .WaitForDeploy, .WaitForHealthy,
          .CheckHealthy, .HealthyQ, .CleanUpSuccess] → completed .Validate tr = true)
      ∧ (c.state ∈ [StateName.ValidateResources, .Deploy, .WaitForDeploy, .WaitForHealthy,
          .CheckHealthy, .HealthyQ, .CleanUpSuccess] → completed .Lock tr = true)
      ∧ (c.state ∈ [StateName.Deploy, .WaitForDeploy, .WaitForHealthy,
          .CheckHealthy, .HealthyQ, .CleanUpSuccess] → completed .ValidateResources tr = true)
      ∧ (c.state ∈ [StateName.WaitForDeploy, .WaitForHealthy,
          .CheckHealthy, .HealthyQ, .CleanUpSuccess] → completed .Deploy tr = true)
      ∧ (c.state ∈ [StateName.HealthyQ, .CleanUpSuccess] → completed .CheckHealthy tr = true)
      ∧ (c.state = .HealthyQ → ∃ pre0 u, tr = pre0 ++ [u] ∧ u.src.state = .CheckHealthy
          ∧ u.ev = .succeed c.healthy ∧ u.dst.state = .HealthyQ))
    (by simp [start, StateMachine])
    (by
      intro tr c ev c1 hP hs
      have hE := step_edge c c1 ev hs
      cases hE <;>
        simp_all [completed_snoc, Transition.succeeded]
      exact ⟨_, _, rfl, rfl, rfl, rfl⟩)
    evs tr c hexec pre post t hsplit
  have hE := step_edge _ _ _ hs
  rcases t with ⟨src, ev, dst⟩
  simp only [Transition.enters, Bool.and_eq_true, decide_eq_true_eq, Bool.not_eq_true',
    decide_eq_false_iff_not] at henters
  cases hE <;> simp_all

/-- A witness for `CleanUpSuccess_only_when_healthy`: the execution `healthyRun`,
whose last transition `promotion` enters CleanUpSuccess. -/
theorem CleanUpSuccess_only_when_healthy_witness :
    promotion.src.state = .HealthyQ ∧ promotion.ev = .tick ∧ promotion.src.healthy = some true
    ∧ (∃ pre0 u, (traceOf healthyRun).dropLast = pre0 ++ [u] ∧ u.src.state = .CheckHealthy
        ∧ u.ev = .succeed (some true) ∧ u.dst.state = .HealthyQ)
    ∧ completed .Validate (traceOf healthyRun).dropLast = true
    ∧ completed .Lock (traceOf healthyRun).dropLast = true
    ∧ completed .ValidateResources (traceOf healthyRun).dropLast = true
    ∧ completed .Deploy (traceOf healthyRun).dropLast = true
    ∧ completed .CheckHealthy (traceOf healthyRun).dropLast = true :=
  CleanUpSuccess_only_when_healthy none healthyRun (traceOf healthyRun)
    ⟨.CleanUpSuccess, some true, []⟩ (traceOf healthyRun).dropLast [] promotion
    (by decide) (by decide) (by decide)

/-- C8: in every execution in which Deploy has returned, a transition that enters
ReleaseLockFailure is a CleanUpFailure attempt that returned, and Deploy returned
before it. -/
theorem ReleaseLockFailure_after_CleanUpFailure (hv : Option Bool) (evs : List Event)
    (tr : List Transition) (c : Config) (pre post : List Transition) (t : Transition)
    (hexec : exec StateMachine hv evs = some (tr, c))
    (hsplit : tr = pre ++ t :: post)
    (hdeploy : completed .Deploy tr = true)
    (henters : t.enters .ReleaseLockFailure = true) :
    t.src.state = .CleanUpFailure ∧ t.succeeded = true ∧ completed .Deploy pre = true := by
  -- once Deploy has returned the execution never is at one of the four leading tasks
  obtain ⟨hP, hs⟩ := exec_invariant_at StateMachine hv
    (fun tr c => completed .Deploy tr = true →
      c.state ∉ [StateName.Validate, .Lock, .ValidateResources, .Deploy])
    (by simp [completed])
    (by
      intro tr c ev c1 hP hs
      have hE := step_edge c c1 ev hs
      cases hE <;> simp_all [completed_snoc, Transition.succeeded])
    evs tr c hexec pre post t hsplit
  have hE := step_edge _ _ _ hs
  -- once ReleaseLockFailure was reached only it and the failure terminals follow
  have hafter : ∀ (post1 post2 : List Transition) (u : Transition),
      post = post1 ++ u :: post2 → u.src.state ≠ .Deploy := by
    intro post1 post2 u hpost
    have hsplit2 : tr = (pre ++ t :: post1) ++ u :: post2 := by
      rw [hsplit, hpost]; simp
    obtain ⟨hQ, -⟩ := exec_invariant_at StateMachine hv
      (fun tr c => (tr.any fun x => decide (x.dst.state = .ReleaseLockFailure)) = true →
        c.state ∈ [StateName.ReleaseLockFailure, .FailureClean, .FailureDirty])
      (by simp)
      (by
        intro tr c ev c1 hP hs
        have hE := step_edge c c1 ev hs
        cases hE <;> simp_all [List.any_append])
      evs tr c hexec (pre ++ t :: post1) post2 u hsplit2
    simp only [Transition.enters, Bool.and_eq_true, decide_eq_true_eq] at henters
    have hmem := hQ (by simp [List.any_append, henters.1])
    intro hd
    rw [hd] at hmem
    simp at hmem
  have hpre : completed .Deploy pre = true := by
    rw [hsplit] at hdeploy
    simp only [completed, List.any_append, List.any_cons, Bool.or_eq_true, Bool.and_eq_true,
      decide_eq_true_eq, List.any_eq_true] at hdeploy
    rcases hdeploy with h1 | h2 | ⟨u, hu, hud, -⟩
    · simpa [completed] using h1
    · exfalso
      rcases t with ⟨src, ev, dst⟩
      simp only [Transition.enters, Bool.and_eq_true, decide_eq_true_eq] at henters
      cases hE <;> simp_all [Transition.succeeded]
    · exfalso
      obtain ⟨post1, post2, hpost⟩ := List.append_of_mem hu
      exact hafter post1 post2 u hpost hud
  refine ⟨?_, ?_, hpre⟩
  · have := hP hpre
    rcases t with ⟨src, ev, dst⟩
    simp only [Transition.enters, Bool.and_eq_true, decide_eq_true_eq, Bool.not_eq_true',
      decide_eq_false_iff_not] at henters
    cases hE <;> simp_all
  · have := hP hpre
    rcases t with ⟨src, ev, dst⟩
    simp only [Transition.enters, Bool.and_eq_true, decide_eq_true_eq, Bool.not_eq_true',
      decide_eq_false_iff_not] at henters
    cases hE <;> simp_all [Transition.succeeded]

/-- A witness for `ReleaseLockFailure_after_CleanUpFailure`: the execution
`haltedRun`, which enters ReleaseLockFailure by the transition `cleanedUp`. -/
theorem ReleaseLockFailure_after_CleanUpFailure_witness :
    cleanedUp.src.state = .CleanUpFailure ∧ cleanedUp.succeeded = true
    ∧ completed .Deploy (traceOf haltedRun).dropLast.dropLast = true :=
  ReleaseLockFailure_after_CleanUpFailure none haltedRun (traceOf haltedRun)
    ⟨.FailureClean, none, []⟩ (traceOf haltedRun).dropLast.dropLast [released] cleanedUp
    (by decide) (by decide) (by decide) (by decide)

/-- C9: for every execution in which Lock has returned, ReleaseLockFailure has
returned in it if and only if the execution stands at FailureClean. So of the two
failure terminals FailureClean is reached only through a ReleaseLockFailure that
returned, and an execution that ends in FailureDirty contains none. -/
theorem lock_released_iff_FailureClean (hv : Option Bool) (evs : List Event)
    (tr : List Transition) (c : Config)
    (hexec : exec StateMachine hv evs = some (tr, c))
    (hlock : completed .Lock tr = true) :
    (completed .ReleaseLockFailure tr = true ↔ c.state = .FailureClean)
    ∧ (completed .ReleaseLockFailure tr = false ∨ c.state ≠ .FailureDirty) := by
  have hP := exec_induction StateMachine hv
    (fun tr c =>
      (completed .Lock tr = true → c.state ≠ .Validate ∧ c.state ≠ .Lock
        ∧ (c.state = .FailureClean → completed .ReleaseLockFailure tr = true))
      ∧ (completed .ReleaseLockFailure tr = true → c.state = .FailureClean))
    (by simp [completed])
    (by
      intro tr c ev c1 hP hs
      have hE := step_edge c c1 ev hs
      cases hE <;> simp_all [completed_snoc, Transition.succeeded])
    evs tr c hexec
  refine ⟨⟨hP.2, (hP.1 hlock).2.2⟩, ?_⟩
  cases hc : completed .ReleaseLockFailure tr with
  | false => exact Or.inl rfl
  | true =>
    right
    rw [hP.2 hc]
    decide

/-- A witness for `lock_released_iff_FailureClean`: the execution `haltedRun`,
which ends in FailureClean. -/
theorem lock_released_iff_FailureClean_witness :
    (completed .ReleaseLockFailure (traceOf haltedRun) = true
      ↔ (⟨.FailureClean, none, []⟩ : Config).state = .FailureClean)
    ∧ (completed .ReleaseLockFailure (traceOf haltedRun) = false
      ∨ (⟨.FailureClean, none, []⟩ : Config).state ≠ .FailureDirty) :=
  lock_released_iff_FailureClean none haltedRun (traceOf haltedRun)
    ⟨.FailureClean, none, []⟩ (by decide) (by decide)

/-- C10: in every execution, a transition into FailureDirty is a failed attempt of
CleanUpSuccess, CleanUpFailure or ReleaseLockFailure, taken by the catcher of that
state when its retrier (3 retries, 30 s apart, for every error) has no retry left;
the three transitions before it are failed attempts of the same state. No state
other than these three has a route to FailureDirty. -/
theorem FailureDirty_only_after_retries (hv : Option Bool) (evs : List Event)
    (tr : List Transition) (c : Config) (pre post : List Transition) (t : Transition)
    (hexec : exec StateMachine hv evs = some (tr, c))
    (hsplit : tr = pre ++ t :: post)
    (hdirty : t.dst.state = .FailureDirty) :
    (t.src.state = .CleanUpSuccess ∨ t.src.state = .CleanUpFailure
      ∨ t.src.state = .ReleaseLockFailure)
    ∧ (∃ e, t.ev = .fail e
        ∧ catchRoute (StateMachine.States t.src.state).catchers e = some .FailureDirty
        ∧ retryPolicy (StateMachine.States t.src.state) e = some (3, some 30))
    ∧ 3 ≤ used 0 t.src.attempts
    ∧ 3 ≤ trailingFailures t.src.state pre
    ∧ (∀ n, .FailureDirty ∈ (StateMachine.States n).targets ↔
        (n = .CleanUpSuccess ∨ n = .CleanUpFailure ∨ n = .ReleaseLockFailure)) := by
  obtain ⟨hP, hs⟩ := exec_invariant_at StateMachine hv
    (fun tr c => ∀ i, used i c.attempts ≤ trailingFailures c.state tr)
    (by simp [start, used_nil])
    (by
      intro tr c ev c1 hP hs i
      have hE := step_edge c c1 ev hs
      cases hE <;>
        simp_all [trailingFailures_snoc, Transition.failed, used_nil]
      all_goals
        exact le_trans (used_bump_le _ i _) (Nat.succ_le_succ (hP i)))
    evs tr c hexec pre post t hsplit
  have hE := step_edge _ _ _ hs
  have h0 := hP 0
  have hstatic : ∀ n, .FailureDirty ∈ (StateMachine.States n).targets ↔
      (n = .CleanUpSuccess ∨ n = .CleanUpFailure ∨ n = .ReleaseLockFailure) := by
    intro n
    cases n <;> simp [StateMachine, State.targets, catchAll]
  clear hexec hsplit hP hs
  rcases t with ⟨src, ev, dst⟩
  simp only at hdirty hE h0 ⊢
  cases hE
  case success_dirty h att e hspent =>
    exact ⟨Or.inl rfl, ⟨e, rfl, by simp [StateMachine, State.catchers, catchRoute, catchAll,
      matchesError], by simp [StateMachine, State.retriers, retryPolicy, findRetrier, keepTrying,
      matchesError]⟩, hspent, le_trans hspent h0, hstatic⟩
  case failure_dirty h att e hspent =>
    exact ⟨Or.inr (Or.inl rfl), ⟨e, rfl, by simp [StateMachine, State.catchers, catchRoute,
      catchAll, matchesError], by simp [StateMachine, State.retriers, retryPolicy, findRetrier,
      keepTrying, matchesError]⟩, hspent, le_trans hspent h0, hstatic⟩
  case release_dirty h att e hspent =>
    exact ⟨Or.inr (Or.inr rfl), ⟨e, rfl, by simp [StateMachine, State.catchers, catchRoute,
      catchAll, matchesError], by simp [StateMachine, State.retriers, retryPolicy, findRetrier,
      keepTrying, matchesError]⟩, hspent, le_trans hspent h0, hstatic⟩
  all_goals simp at hdirty

/-- A witness for `FailureDirty_only_after_retries`: the execution `dirtyRun`, whose
last transition `giveUp` is the fourth failure of CleanUpSuccess. -/
theorem FailureDirty_only_after_retries_witness :
    (giveUp.src.state = .CleanUpSuccess ∨ giveUp.src.state = .CleanUpFailure
      ∨ giveUp.src.state = .ReleaseLockFailure)
    ∧ (∃ e, giveUp.ev = .fail e
        ∧ catchRoute (StateMachine.States giveUp.src.state).catchers e = some .FailureDirty
        ∧ retryPolicy (StateMachine.States giveUp.src.state) e = some (3, some 30))
    ∧ 3 ≤ used 0 giveUp.src.attempts
    ∧ 3 ≤ trailingFailures giveUp.src.state (traceOf dirtyRun).dropLast
    ∧ (∀ n, .FailureDirty ∈ (StateMachine.States n).targets ↔
        (n = .CleanUpSuccess ∨ n = .CleanUpFailure ∨ n = .ReleaseLockFailure)) :=
  FailureDirty_only_after_retries none dirtyRun (traceOf dirtyRun)
    ⟨.FailureDirty, some true, []⟩ (traceOf dirtyRun).dropLast [] giveUp
    (by decide) (by decide) (by decide)

/-! ## Validation of a service -/

/-- A string pointer is not empty exactly when it points to a string other than "". -/
theorem EmptyStr_eq_false_iff (s : Option String) :
    EmptyStr s = false ↔ ∃ str, s = some str ∧ str ≠ "" := by
  cases s with
  | none => simp [EmptyStr]
  | some str => simp [EmptyStr]

/-- The loop of `is.UniqueStrp` accepts exactly the lists without nil, without
repetition and without a string met before. -/
theorem uniqueFrom_iff (strs : List (Option String)) :
    ∀ seen : List String, uniqueFrom seen strs = true ↔
      (none ∉ strs ∧ strs.Nodup ∧ ∀ s ∈ seen, some s ∉ strs) := by
  induction strs with
  | nil => intro seen; simp [uniqueFrom]
  | cons a rest ih =>
    intro seen
    cases a with
    | none => simp [uniqueFrom]
    | some str =>
      by_cases hmem : str ∈ seen
      · simp only [uniqueFrom, hmem, if_true]
        constructor
        · intro hfalse; cases hfalse
        · rintro ⟨-, -, h3⟩
          exact absurd (List.mem_cons_self _ _) (h3 str hmem)
      · simp only [uniqueFrom, hmem, if_false, ih, List.mem_cons, List.nodup_cons]
        constructor
        · rintro ⟨h1, h2, h3⟩
          refine ⟨?_, ⟨h3 str (Or.inl rfl), h2⟩, ?_⟩
          · rintro (h | h)
            · cases h
            · exact h1 h
          · intro s hs
            rintro (h | h)
            · cases h; exact hmem hs
            · exact h3 s (Or.inr hs) h
        · rintro ⟨h1, ⟨h2, h3⟩, h4⟩
          refine ⟨fun h => h1 (Or.inr h), h3, ?_⟩
          rintro s (rfl | hs)
          · exact h2
          · exact fun h => h4 s hs (Or.inr h)

/-- The function `is.UniqueStrp` accepts exactly the lists without repetition and
without nil. -/
theorem UniqueStrp_iff (strs : List (Option String)) :
    UniqueStrp strs = true ↔ (strs.Nodup ∧ none ∉ strs) := by
  unfold UniqueStrp
  rw [uniqueFrom_iff]
  simp only [List.not_mem_nil, false_implies, implies_true, and_true]
  exact And.comm

/-- C11: validatePlacementGroupAttributes returns no error if and only if
PlacementGroupName is nil, or PlacementGroupStrategy is set to one of "cluster",
"spread", "partition" and PlacementGroupPartitionCount is set exactly when the
strategy is "partition". -/
theorem validatePlacementGroupAttributes_accepts_iff (service : Service) :
    validatePlacementGroupAttributes service = none ↔
      (service.PlacementGroupName = none ∨
        ∃ strat, service.PlacementGroupStrategy = some strat
          ∧ (strat = "cluster" ∨ strat = "spread" ∨ strat = "partition")
          ∧ (service.PlacementGroupPartitionCount ≠ none ↔ strat = "partition")) := by
  unfold validatePlacementGroupAttributes
  cases hname : service.PlacementGroupName with
  | none => simp
  | some name =>
    cases hstrat : service.PlacementGroupStrategy with
    | none => simp
    | some strat =>
      by_cases h1 : strat = "cluster" <;> by_cases h2 : strat = "spread" <;>
        by_cases h3 : strat = "partition" <;>
        cases hcount : service.PlacementGroupPartitionCount <;>
        simp_all

/-- C12: ValidateAttributes accepts a service (returns nil) exactly when ServiceName
and InstanceType are non-empty, Autoscaling is non-nil and passes its own
ValidateAttributes, there is at least one security group, SecurityGroups, ELBs and
TargetGroups are free of duplicates (and of nil entries), and
validatePlacementGroupAttributes accepts. So an accepted service has all of these,
and a service that violates one of them gets an error. -/
theorem ValidateAttributes_accepts_iff (h : Helpers) (service : Service) :
    ValidateAttributes h service = none ↔
      ((∃ name, service.ServiceName = some name ∧ name ≠ "")
      ∧ (∃ type, service.InstanceType = some type ∧ type ≠ "")
      ∧ (∃ config, service.Autoscaling = some config
          ∧ h.autoscalingValidateAttributes config = none)
      ∧ 1 ≤ service.SecurityGroups.length
      ∧ (service.SecurityGroups.Nodup ∧ none ∉ service.SecurityGroups)
      ∧ (service.ELBs.Nodup ∧ none ∉ service.ELBs)
      ∧ (service.TargetGroups.Nodup ∧ none ∉ service.TargetGroups)
      ∧ validatePlacementGroupAttributes service = none) := by
  rw [← EmptyStr_eq_false_iff, ← EmptyStr_eq_false_iff, ← UniqueStrp_iff, ← UniqueStrp_iff,
    ← UniqueStrp_iff]
  cases h1 : EmptyStr service.ServiceName
  case true => simp [ValidateAttributes, h1]
  cases h2 : EmptyStr service.InstanceType
  case true => simp [ValidateAttributes, h1, h2]
  cases h3 : service.Autoscaling with
  | none => simp [ValidateAttributes, h1, h2, h3]
  | some config =>
    cases h4 : h.autoscalingValidateAttributes config with
    | some err => simp [ValidateAttributes, h1, h2, h3, h4]
    | none =>
      cases h5 : service.SecurityGroups with
      | nil => simp [ValidateAttributes, h1, h2, h3, h4, h5]
      | cons sg sgs =>
        rw [← h5]
        have hlen : ¬ service.SecurityGroups.length < 1 := by simp [h5]
        have hlen1 : 1 ≤ service.SecurityGroups.length := by simp [h5]
        cases h6 : UniqueStrp service.SecurityGroups
        case false => simp [ValidateAttributes, h1, h2, h3, h4, hlen, h6]
        cases h7 : UniqueStrp service.ELBs
        case false => simp [ValidateAttributes, h1, h2, h3, h4, hlen, h6, h7]
        cases h8 : UniqueStrp service.TargetGroups
        case false => simp [ValidateAttributes, h1, h2, h3, h4, hlen, h6, h7, h8]
        cases h9 : validatePlacementGroupAttributes service with
        | some err => simp [ValidateAttributes, h1, h2, h3, h4, hlen, h6, h7, h8, h9]
        | none => simp [ValidateAttributes, h1, h2, h3, h4, hlen, hlen1, h6, h7, h8, h9]

/-! ## Names and inputs -/

/-- ServiceID returns when the service has a release. -/
theorem ServiceID_returns (service : Service) (release : Release)
    (hrelease : service.release = some release) :
    ∃ serviceID, ServiceID service = .returned serviceID := by
  unfold ServiceID
  rw [hrelease]
  simp only
  split <;> exact ⟨_, rfl⟩

/-- No colon is left after `colonsToDashes`. -/
theorem colonsToDashes_no_colon (s : String) : ':' ∉ (colonsToDashes s).data := by
  simp only [colonsToDashes, List.mem_map, not_exists, not_and]
  intro c _
  split_ifs with hc
  · decide
  · exact hc

/-- The lifecycle hooks can be converted when none of them is nil. -/
theorem hookSpecs_returns (h : Helpers) (hooks : List (String × Option LifeCycleHook))
    (hhooks : ∀ p ∈ hooks, p.2 ≠ none) : ∃ lcs, hookSpecs h hooks = .returned lcs := by
  induction hooks with
  | nil => exact ⟨[], rfl⟩
  | cons p rest ih =>
    obtain ⟨name, lc⟩ := p
    cases lc with
    | none => exact absurd rfl (hhooks (name, none) (List.mem_cons_self _ _))
    | some lc =>
      obtain ⟨lcs, hlcs⟩ := ih (fun q hq => hhooks q (List.mem_cons_of_mem _ hq))
      exact ⟨h.ToLifecycleHookSpecification lc :: lcs, by simp only [hookSpecs, hlcs]⟩

/-- The hooks that the loop of Validate accepts are not nil. -/
theorem validateHooks_nonnil (h : Helpers) (hooks : List (String × Option LifeCycleHook))
    (hvalid : validateHooks h hooks = none) : ∀ p ∈ hooks, p.2 ≠ none := by
  induction hooks with
  | nil => intro p hp; cases hp
  | cons q rest ih =>
    obtain ⟨name, lc⟩ := q
    cases lc with
    | none => simp [validateHooks] at hvalid
    | some lc =>
      simp only [validateHooks] at hvalid
      cases hlc : h.hookValidateAttributes lc with
      | some err => rw [hlc] at hvalid; cases hvalid
      | none =>
        rw [hlc] at hvalid
        intro p hp
        rcases List.mem_cons.mp hp with rfl | hp
        · simp
        · exact ih hvalid p hp

/-- The loop over the tags keeps the two names when `AddTag` does. -/
theorem addTags_names (h : Helpers)
    (hAddTag : ∀ input key value,
      (h.AddTag input key value).AutoScalingGroupName = input.AutoScalingGroupName
      ∧ (h.AddTag input key value).LaunchConfigurationName = input.LaunchConfigurationName)
    (tags : List (String × Option String)) :
    ∀ input, (addTags h input tags).AutoScalingGroupName = input.AutoScalingGroupName
      ∧ (addTags h input tags).LaunchConfigurationName = input.LaunchConfigurationName := by
  induction tags with
  | nil => intro input; exact ⟨rfl, rfl⟩
  | cons t rest ih =>
    intro input
    obtain ⟨key, value⟩ := t
    simp only [addTags]
    exact ⟨(ih _).1.trans (hAddTag input key value).1, (ih _).2.trans (hAddTag input key value).2⟩

/-- The method createInput returns for a service with a release, a strategy, an
autoscaling config and resources whose lifecycle hooks are not nil. -/
theorem createInput_returns (h : Helpers) (service : Service) (release : Release)
    (strategy : Strategy) (config : AutoScalingConfig) (resources : ServiceResourceNames)
    (hrelease : service.release = some release) (hstrategy : service.strategy = some strategy)
    (hconfig : service.Autoscaling = some config)
    (hresources : service.Resources = some resources)
    (hhooks : ∀ p ∈ release.LifeCycleHooks, p.2 ≠ none) :
    ∃ input, createInput h service = .returned input := by
  obtain ⟨serviceID, hid⟩ := ServiceID_returns service release hrelease
  obtain ⟨lcs, hlcs⟩ := hookSpecs_returns h release.LifeCycleHooks hhooks
  unfold createInput
  simp only [hid, hstrategy, hconfig, hresources, SubnetIds, LifeCycleHookSpecs, hrelease, hlcs]
  exact ⟨_, rfl⟩

/-- The input that createInput returns carries the service id in both of its names,
when the helpers of `asg.Input` keep the names. -/
theorem createInput_names (h : Helpers) (service : Service)
    (hAddTag : ∀ input key value,
      (h.AddTag input key value).AutoScalingGroupName = input.AutoScalingGroupName
      ∧ (h.AddTag input key value).LaunchConfigurationName = input.LaunchConfigurationName)
    (hDefaults : ∀ input,
      (h.asgSetDefaults input).AutoScalingGroupName = input.AutoScalingGroupName
      ∧ (h.asgSetDefaults input).LaunchConfigurationName = input.LaunchConfigurationName)
    (serviceID : Option String) (input : CreateAutoScalingGroupInput)
    (hid : ServiceID service = .returned serviceID)
    (hinput : createInput h service = .returned input) :
    input.AutoScalingGroupName = serviceID ∧ input.LaunchConfigurationName = serviceID := by
  unfold createInput at hinput
  rw [hid] at hinput
  simp only at hinput
  split at hinput
  · cases hinput
  split at hinput
  · cases hinput
  split at hinput
  · cases hinput
  split at hinput
  · cases hinput
  split at hinput
  · cases hinput
  split at hinput
  · cases hinput
  simp only [Outcome.returned.injEq] at hinput
  subst hinput
  simp only [hDefaults, hAddTag, addTags_names h hAddTag]
  exact ⟨trivial, trivial⟩

/-- The method createLaunchConfigurationInput returns for a service with a release. -/
theorem createLaunchConfigurationInput_returns (h : Helpers) (service : Service)
    (release : Release) (hrelease : service.release = some release) :
    ∃ lcInput, createLaunchConfigurationInput h service = .returned lcInput := by
  obtain ⟨serviceID, hid⟩ := ServiceID_returns service release hrelease
  unfold createLaunchConfigurationInput
  simp only [hid, UserData, hrelease]
  exact ⟨_, rfl⟩

/-- The input that createLaunchConfigurationInput returns carries the service id as
its name, when `AddBlockDevice` keeps the name. -/
theorem createLaunchConfigurationInput_name (h : Helpers) (service : Service)
    (hAddBlockDevice : ∀ input size type name,
      (h.AddBlockDevice input size type name).LaunchConfigurationName
        = input.LaunchConfigurationName)
    (serviceID : Option String) (lcInput : CreateLaunchConfigurationInput)
    (hid : ServiceID service = .returned serviceID)
    (hinput : createLaunchConfigurationInput h service = .returned lcInput) :
    lcInput.LaunchConfigurationName = serviceID := by
  unfold createLaunchConfigurationInput at hinput
  rw [hid] at hinput
  simp only at hinput
  split at hinput
  · cases hinput
  simp only [Outcome.returned.injEq] at hinput
  subst hinput
  simp only [hAddBlockDevice]
  split <;> rfl

/-- The text that `strings.Replace(s, ":", "-", -1)` returns: as long as `s`, with a
dash wherever `s` has a colon and the character of `s` everywhere else. -/
theorem colonsToDashes_chars (s : String) :
    (colonsToDashes s).data.length = s.data.length
    ∧ ∀ (i : Nat) (c : Char), s.data[i]? = some c →
        (colonsToDashes s).data[i]? = some (if c = ':' then '-' else c) := by
  refine ⟨by simp [colonsToDashes], ?_⟩
  intro i c hc
  simp [colonsToDashes, List.getElem?_map, hc]

/-- C15: for a service with a release, a strategy, an autoscaling config and
resources, whose lifecycle hooks are not nil, ServiceID and both inputs are
produced, and the AutoScalingGroupName and the LaunchConfigurationName of the ASG
input and the LaunchConfigurationName of the launch-configuration input all are the
value of ServiceID. That value is nil exactly when the project name, the config
name, the service name or created_at is nil; otherwise it is
"project-config-ts-name", where ts is as long as the UTC RFC3339 rendering of
created_at, has a dash wherever the rendering has a colon and the character of the
rendering everywhere else, and so holds no colon. -/
theorem ServiceID_names_inputs (h : Helpers) (service : Service) (release : Release)
    (strategy : Strategy) (config : AutoScalingConfig) (resources : ServiceResourceNames)
    (hrelease : service.release = some release) (hstrategy : service.strategy = some strategy)
    (hconfig : service.Autoscaling = some config)
    (hresources : service.Resources = some resources)
    (hhooks : ∀ p ∈ release.LifeCycleHooks, p.2 ≠ none) :
    ∃ serviceID input lcInput,
      ServiceID service = .returned serviceID
      ∧ createInput h.namesKept service = .returned input
      ∧ createLaunchConfigurationInput h.namesKept service = .returned lcInput
      ∧ input.AutoScalingGroupName = serviceID
      ∧ input.LaunchConfigurationName = serviceID
      ∧ lcInput.LaunchConfigurationName = serviceID
      ∧ (serviceID = none ↔
          (release.ProjectName = none ∨ release.ConfigName = none
            ∨ service.ServiceName = none ∨ release.CreatedAt = none))
      ∧ (∀ project config name createdAt,
          release.ProjectName = some project → release.ConfigName = some config →
          service.ServiceName = some name → release.CreatedAt = some createdAt →
          ∃ ts, serviceID = some (project ++ "-" ++ config ++ "-" ++ ts ++ "-" ++ name)
            ∧ ts.data.length = createdAt.utcRFC3339.data.length
            ∧ (∀ (i : Nat) (c : Char), createdAt.utcRFC3339.data[i]? = some c →
                ts.data[i]? = some (if c = ':' then '-' else c))
            ∧ ':' ∉ ts.data) := by
  obtain ⟨serviceID, hid⟩ := ServiceID_returns service release hrelease
  obtain ⟨input, hinput⟩ := createInput_returns h.namesKept service release strategy config
    resources hrelease hstrategy hconfig hresources hhooks
  obtain ⟨lcInput, hlc⟩ :=
    createLaunchConfigurationInput_returns h.namesKept service release hrelease
  have hnames := createInput_names h.namesKept service (fun _ _ _ => ⟨rfl, rfl⟩)
    (fun _ => ⟨rfl, rfl⟩) serviceID input hid hinput
  have hname := createLaunchConfigurationInput_name h.namesKept service (fun _ _ _ _ => rfl)
    serviceID lcInput hid hlc
  refine ⟨serviceID, input, lcInput, hid, hinput, hlc, hnames.1, hnames.2, hname, ?_, ?_⟩
  · unfold ServiceID at hid
    rw [hrelease] at hid
    simp only at hid
    cases hp : release.ProjectName <;> cases hc : release.ConfigName <;>
      cases hn : service.ServiceName <;> cases ht : release.CreatedAt <;>
      simp only [hp, hc, hn, ht, Outcome.returned.injEq] at hid <;> subst hid <;> simp
  · intro project cfg name createdAt hp hc hn ht
    refine ⟨colonsToDashes createdAt.utcRFC3339, ?_, (colonsToDashes_chars _).1,
      (colonsToDashes_chars _).2, colonsToDashes_no_colon _⟩
    unfold ServiceID at hid
    rw [hrelease] at hid
    simp only [hp, hc, hn, ht, Outcome.returned.injEq] at hid
    exact hid.symm

/-- A witness for `ServiceID_names_inputs`: the service "web" of `sampleRelease`. -/
theorem ServiceID_names_inputs_witness :
    ∃ serviceID input lcInput,
      ServiceID deployService = .returned serviceID
      ∧ createInput sampleHelpers.namesKept deployService = .returned input
      ∧ createLaunchConfigurationInput sampleHelpers.namesKept deployService
          = .returned lcInput
      ∧ input.AutoScalingGroupName = serviceID
      ∧ input.LaunchConfigurationName = serviceID
      ∧ lcInput.LaunchConfigurationName = serviceID
      ∧ (serviceID = none ↔
          (sampleRelease.ProjectName = none ∨ sampleRelease.ConfigName = none
            ∨ deployService.ServiceName = none ∨ sampleRelease.CreatedAt = none))
      ∧ (∀ project config name createdAt,
          sampleRelease.ProjectName = some project → sampleRelease.ConfigName = some config →
          deployService.ServiceName = some name → sampleRelease.CreatedAt = some createdAt →
          ∃ ts, serviceID = some (project ++ "-" ++ config ++ "-" ++ ts ++ "-" ++ name)
            ∧ ts.data.length = createdAt.utcRFC3339.data.length
            ∧ (∀ (i : Nat) (c : Char), createdAt.utcRFC3339.data[i]? = some c →
                ts.data[i]? = some (if c = ':' then '-' else c))
            ∧ ':' ∉ ts.data) :=
  ServiceID_names_inputs sampleHelpers deployService sampleRelease sampleStrategy sampleConfig {}
    rfl rfl rfl rfl (by decide)

/-! ## `ResetDesiredCapacity` -/

/-- C14: for a service with an autoscaling config and a strategy, whatever was
called before and however the clients answer, ResetDesiredCapacity issues exactly
one UpdateAutoScalingGroup call, on CreatedASG, with the MinSize of the config and
the DesiredCapacity of the strategy; it returns the error of that call and leaves
the service as it is. It never reads the group. -/
theorem ResetDesiredCapacity_calls (env : Clients) (service : Service) (history : List Call)
    (config : AutoScalingConfig) (strategy : Strategy)
    (hconfig : service.Autoscaling = some config)
    (hstrategy : service.strategy = some strategy) :
    (ResetDesiredCapacity env service history).calls
      = [Call.UpdateAutoScalingGroup
          { AutoScalingGroupName := service.CreatedASG
            MinSize := config.MinSize
            DesiredCapacity := some strategy.DesiredCapacity }]
    ∧ (ResetDesiredCapacity env service history).result
      = .returned (env.UpdateAutoScalingGroup history
          { AutoScalingGroupName := service.CreatedASG
            MinSize := config.MinSize
            DesiredCapacity := some strategy.DesiredCapacity })
    ∧ (ResetDesiredCapacity env service history).service = service := by
  unfold ResetDesiredCapacity
  rw [hconfig, hstrategy]
  exact ⟨rfl, rfl, rfl⟩

/-- A witness for `ResetDesiredCapacity_calls`: the service "web" of `sampleRelease`. -/
theorem ResetDesiredCapacity_calls_witness :
    (ResetDesiredCapacity sampleClients deployService []).calls
      = [Call.UpdateAutoScalingGroup
          { AutoScalingGroupName := deployService.CreatedASG
            MinSize := sampleConfig.MinSize
            DesiredCapacity := some sampleStrategy.DesiredCapacity }]
    ∧ (ResetDesiredCapacity sampleClients deployService []).result
      = .returned (sampleClients.UpdateAutoScalingGroup []
          { AutoScalingGroupName := deployService.CreatedASG
            MinSize := sampleConfig.MinSize
            DesiredCapacity := some sampleStrategy.DesiredCapacity })
    ∧ (ResetDesiredCapacity sampleClients deployService []).service = deployService :=
  ResetDesiredCapacity_calls sampleClients deployService [] sampleConfig sampleStrategy rfl rfl

/-! ## `Validate` after `SetDefaults` -/

/-- A service that ValidateAttributes accepts has an autoscaling config. -/
theorem ValidateAttributes_autoscaling (h : Helpers) (service : Service)
    (hattr : ValidateAttributes h service = none) :
    ∃ config, service.Autoscaling = some config := by
  cases hc : service.Autoscaling with
  | some config => exact ⟨config, rfl⟩
  | none =>
    exfalso
    simp only [ValidateAttributes, hc] at hattr
    split_ifs at hattr

/-- Validate returns for a service with a release, a strategy and resources. -/
theorem Validate_returns (h : Helpers) (service : Service) (release : Release)
    (strategy : Strategy) (resources : ServiceResourceNames)
    (hrelease : service.release = some release) (hstrategy : service.strategy = some strategy)
    (hresources : service.Resources = some resources) :
    ∃ result, Validate h service = .returned result := by
  unfold Validate
  cases hattr : ValidateAttributes h service with
  | some err => exact ⟨_, rfl⟩
  | none =>
    obtain ⟨config, hconfig⟩ := ValidateAttributes_autoscaling h service hattr
    simp only [hrelease]
    cases hhooks : validateHooks h release.LifeCycleHooks with
    | some err => exact ⟨_, rfl⟩
    | none =>
      obtain ⟨input, hinput⟩ := createInput_returns h service release strategy config resources
        hrelease hstrategy hconfig hresources (validateHooks_nonnil h _ hhooks)
      obtain ⟨lcInput, hlc⟩ := createLaunchConfigurationInput_returns h service release hrelease
      simp only [hinput, hlc]
      cases h.asgValidate input with
      | some err => exact ⟨_, rfl⟩
      | none =>
        simp only
        cases h.lcValidate lcInput with
        | some err => exact ⟨_, rfl⟩
        | none => exact ⟨_, rfl⟩

/-- Within `service.go`: SetDefaults returns when it is run against a non-nil release;
and for every service that has the release, name, autoscaling config, resources and
strategy that SetDefaults left, whatever its other fields hold (nil or not, the
hooks of the release included), Validate returns, with nil or with an error. The
functions of `Helpers` return by their type, so this says that no dereference
written in `service.go` meets a nil pointer on this path; it says nothing of what
the methods outside the sources do with the values they are given. -/
theorem Validate_returns_after_SetDefaults (h : Helpers) (before other : Service) (release : Release)
    (serviceName : String) :
    ∃ service, SetDefaults h before (some release) serviceName = .returned service
      ∧ ∃ result,
          Validate h { other with
            release := service.release
            ServiceName := service.ServiceName
            Autoscaling := service.Autoscaling
            Resources := service.Resources
            strategy := service.strategy } = .returned result := by
  have hid := ServiceID_returns
    { before with
      release := some release
      ServiceName := some serviceName
      Autoscaling := some (match before.Autoscaling with
        | none => {}
        | some config => config)
      Resources := some (match before.Resources with
        | none => { Subnets := [some "place_holder"] }
        | some names => names) } release rfl
  obtain ⟨serviceID, hid⟩ := hid
  unfold SetDefaults
  simp only [hid]
  refine ⟨_, rfl, ?_⟩
  exact Validate_returns h _ release _ _ rfl rfl rfl

/-! ## `CreateResources` -/

/-- Issuing one more call after a list of calls: it is attempted only when none of
the list failed, with the whole list in the log. -/
theorem issueInOrder_snoc (env : Clients) (last : Call) (steps : List Call) :
    ∀ history, issueInOrder env history (steps ++ [last]) =
      match (issueInOrder env history steps).2 with
      | some err => ((issueInOrder env history steps).1, some err)
      | none => ((issueInOrder env history steps).1 ++ [last],
          answer env (history ++ (issueInOrder env history steps).1) last) := by
  induction steps with
  | nil =>
    intro history
    simp only [List.nil_append, issueInOrder, List.append_nil]
    cases answer env history last <;> rfl
  | cons call rest ih =>
    intro history
    rw [List.cons_append]
    simp only [issueInOrder]
    cases hcall : answer env history call with
    | some err => rfl
    | none =>
      simp only
      rw [ih]
      cases hr : (issueInOrder env (history ++ [call]) rest).2 <;> simp

/-- The loop over the policies issues their calls in order and stops at the first
that fails. -/
theorem createPolicies_eq (env : Clients) (service : Service) (history : List Call)
    (serviceID : Option String) (hid : ServiceID service = .returned serviceID)
    (policies : List Policy) :
    ∀ calls, createPolicies env service history (policies.map some) calls =
      (.returned (issueInOrder env (history ++ calls)
          (policies.map fun p => Call.CreatePolicy p serviceID)).2,
        calls ++ (issueInOrder env (history ++ calls)
          (policies.map fun p => Call.CreatePolicy p serviceID)).1) := by
  induction policies with
  | nil =>
    intro calls
    simp [createPolicies, issueInOrder]
  | cons p rest ih =>
    intro calls
    simp only [List.map_cons, createPolicies, hid, issueInOrder, answer]
    cases env.CreatePolicy (history ++ calls) p serviceID with
    | some err => rfl
    | none =>
      simp only [ih, List.append_assoc, List.singleton_append]

/-- The method createAutoScalingPolicies issues the calls of the policies in order
and stops at the first that fails. -/
theorem createAutoScalingPolicies_eq (env : Clients) (service : Service) (history : List Call)
    (serviceID : Option String) (config : AutoScalingConfig) (policies : List Policy)
    (hid : ServiceID service = .returned serviceID)
    (hconfig : service.Autoscaling = some config)
    (hpolicies : config.Policies = policies.map some) (calls : List Call) :
    createAutoScalingPolicies env service history calls =
      (.returned (issueInOrder env (history ++ calls)
          (policies.map fun p => Call.CreatePolicy p serviceID)).2,
        calls ++ (issueInOrder env (history ++ calls)
          (policies.map fun p => Call.CreatePolicy p serviceID)).1) := by
  unfold createAutoScalingPolicies
  rw [hconfig]
  simp only [hpolicies]
  exact createPolicies_eq env service history serviceID hid policies calls

/-- C13: for a service with a release, a strategy, an autoscaling config and
resources, none of whose lifecycle hooks and policies is nil, CreateResources issues
the calls of `plannedCalls` (launch configuration, group, each policy in list order,
metrics collection) in that order, stops at the first call that fails and returns
its error, and returns nil when none fails; CreatedASG is the name of the new group
when the creation of the launch configuration and of the group both succeeded, and
is left as it was otherwise. -/
theorem CreateResources_in_order (env : Clients) (h : Helpers) (service : Service)
    (history : List Call) (release : Release) (strategy : Strategy)
    (config : AutoScalingConfig) (resources : ServiceResourceNames) (policies : List Policy)
    (hrelease : service.release = some release) (hstrategy : service.strategy = some strategy)
    (hconfig : service.Autoscaling = some config)
    (hresources : service.Resources = some resources)
    (hhooks : ∀ p ∈ release.LifeCycleHooks, p.2 ≠ none)
    (hpolicies : config.Policies = policies.map some) :
    ∃ lcInput input serviceID,
      createLaunchConfigurationInput h service = .returned lcInput
      ∧ createInput h service = .returned input
      ∧ ServiceID service = .returned serviceID
      ∧ (CreateResources env h service history).calls
          = (issueInOrder env history (plannedCalls lcInput input policies serviceID
              (h.ToASG input).AutoScalingGroupName)).1
      ∧ (CreateResources env h service history).result
          = .returned (issueInOrder env history (plannedCalls lcInput input policies serviceID
              (h.ToASG input).AutoScalingGroupName)).2
      ∧ (CreateResources env h service history).service.CreatedASG
          = (if env.CreateLaunchConfiguration history lcInput = none
                ∧ env.CreateAutoScalingGroup
                    (history ++ [Call.CreateLaunchConfiguration lcInput]) input = none
             then (h.ToASG input).AutoScalingGroupName
             else service.CreatedASG) := by
  obtain ⟨serviceID, hid⟩ := ServiceID_returns service release hrelease
  obtain ⟨input, hinput⟩ := createInput_returns h service release strategy config resources
    hrelease hstrategy hconfig hresources hhooks
  obtain ⟨lcInput, hlc⟩ := createLaunchConfigurationInput_returns h service release hrelease
  refine ⟨lcInput, input, serviceID, hlc, hinput, hid, ?_⟩
  unfold CreateResources
  simp only [hlc, hinput]
  cases hA : env.CreateLaunchConfiguration history lcInput with
  | some err => simp [plannedCalls, issueInOrder, answer, hA]
  | none =>
    simp only
    cases hB : env.CreateAutoScalingGroup (history ++ [Call.CreateLaunchConfiguration lcInput])
        input with
    | some err => simp [plannedCalls, issueInOrder, answer, hA, hB]
    | none =>
      simp only
      rw [createAutoScalingPolicies_eq env
        { service with CreatedASG := (h.ToASG input).AutoScalingGroupName } history serviceID
        config policies hid hconfig hpolicies]
      have hplan : issueInOrder env history (plannedCalls lcInput input policies serviceID
          (h.ToASG input).AutoScalingGroupName) =
          match (issueInOrder env
            (history ++ ([Call.CreateLaunchConfiguration lcInput]
              ++ [Call.CreateAutoScalingGroup input]))
            (policies.map fun p => Call.CreatePolicy p serviceID)).2 with
          | some err =>
            (Call.CreateLaunchConfiguration lcInput :: Call.CreateAutoScalingGroup input ::
              (issueInOrder env
                (history ++ ([Call.CreateLaunchConfiguration lcInput]
                  ++ [Call.CreateAutoScalingGroup input]))
                (policies.map fun p => Call.CreatePolicy p serviceID)).1, some err)
          | none =>
            (Call.CreateLaunchConfiguration lcInput :: Call.CreateAutoScalingGroup input ::
              ((issueInOrder env
                (history ++ ([Call.CreateLaunchConfiguration lcInput]
                  ++ [Call.CreateAutoScalingGroup input]))
                (policies.map fun p => Call.CreatePolicy p serviceID)).1
                ++ [Call.EnableMetricsCollection (h.ToASG input).AutoScalingGroupName
                      (some "1Minute")]),
              env.EnableMetricsCollection
                (history ++ (([Call.CreateLaunchConfiguration lcInput]
                  ++ [Call.CreateAutoScalingGroup input]) ++
                  (issueInOrder env
                    (history ++ ([Call.CreateLaunchConfiguration lcInput]
                      ++ [Call.CreateAutoScalingGroup input]))
                    (policies.map fun p => Call.CreatePolicy p serviceID)).1))
                (h.ToASG input).AutoScalingGroupName (some "1Minute")) := by
        simp only [plannedCalls, issueInOrder, answer, hA, hB, issueInOrder_snoc,
          List.append_assoc, List.singleton_append, List.cons_append, List.nil_append]
        cases (issueInOrder env
            (history ++ [Call.CreateLaunchConfiguration lcInput,
              Call.CreateAutoScalingGroup input])
            (policies.map fun p => Call.CreatePolicy p serviceID)).2 <;> rfl
      rw [hplan]
      cases hC : (issueInOrder env
          (history ++ ([Call.CreateLaunchConfiguration lcInput]
            ++ [Call.CreateAutoScalingGroup input]))
          (policies.map fun p => Call.CreatePolicy p serviceID)).2 with
      | some err => simp
      | none => simp [setHealthy, hstrategy]

/-- A witness for `CreateResources_in_order`: the service "web" of `sampleRelease`,
with its one policy. -/
theorem CreateResources_in_order_witness :
    ∃ lcInput input serviceID,
      createLaunchConfigurationInput sampleHelpers deployService = .returned lcInput
      ∧ createInput sampleHelpers deployService = .returned input
      ∧ ServiceID deployService = .returned serviceID
      ∧ (CreateResources sampleClients sampleHelpers deployService []).calls
          = (issueInOrder sampleClients [] (plannedCalls lcInput input
              [{ PolicyType := some "cpu_scale_up", ScalingAdjustment := some 1 }] serviceID
              (sampleHelpers.ToASG input).AutoScalingGroupName)).1
      ∧ (CreateResources sampleClients sampleHelpers deployService []).result
          = .returned (issueInOrder sampleClients [] (plannedCalls lcInput input
              [{ PolicyType := some "cpu_scale_up", ScalingAdjustment := some 1 }] serviceID
              (sampleHelpers.ToASG input).AutoScalingGroupName)).2
      ∧ (CreateResources sampleClients sampleHelpers deployService []).service.CreatedASG
          = (if sampleClients.CreateLaunchConfiguration [] lcInput = none
                ∧ sampleClients.CreateAutoScalingGroup
                    ([] ++ [Call.CreateLaunchConfiguration lcInput]) input = none
             then (sampleHelpers.ToASG input).AutoScalingGroupName
             else deployService.CreatedASG) :=
  CreateResources_in_order sampleClients sampleHelpers deployService [] sampleRelease
    sampleStrategy sampleConfig {}
    [{ PolicyType := some "cpu_scale_up", ScalingAdjustment := some 1 }]
    rfl rfl rfl rfl (by decide) rfl

end Odin
